import Mathlib

/-!
# Verification of the gomplate configuration subsystem

A shallow embedding of `internal/config/configfile.go`: the `Config`
document, the merger (`MergeFrom`), the validator (`Validate`), the
defaults applier (`ApplyDefaults`), the datasource / header flag parsers
(`ParseDataSourceFlags`), the file-mode parser (`GetMode`) and the URL
resolver (`parseSourceURL` / `absFileURL`, together with the fragment of
Go's `net/url` package that they exercise), with theorems checking the
specified properties of each.

Go maps are modelled as `Option` of an association list: `none` is a nil
map (reads yield the zero value, writes panic), `some es` is an
initialized map with entries `es`.  Functions whose Go originals can
panic (write into a nil map, index out of range) return an `Option`,
with `none` marking the panic.
-/

namespace GomplateConfig

/-- Association-list entries of a Go map (keys are unique in any list
built by `Entries.insert` from `[]`). -/
abbrev Entries (α : Type) := List (String × α)

/-- Read an entry, first match wins (lists built by `insert` have unique
keys, so this is the Go map read). -/
def entLookup {α : Type} : Entries α → String → Option α
  | [], _ => none
  | (k, v) :: rest, key => if k = key then some v else entLookup rest key

/-- Write an entry: replace in place when the key is present, append
otherwise (the Go map write, up to iteration order). -/
def entInsert {α : Type} : Entries α → String → α → Entries α
  | [], k, v => [(k, v)]
  | (k0, v0) :: rest, k, v =>
    if k0 = k then (k, v) :: rest else (k0, v0) :: entInsert rest k v

/-- Delete all entries for a key (the Go `delete`; on unique-key lists at
most one entry is removed). -/
def entErase {α : Type} : Entries α → String → Entries α
  | [], _ => []
  | (k0, v0) :: rest, k =>
    if k0 = k then entErase rest k else (k0, v0) :: entErase rest k

/-- The keys of an entry list. -/
def entKeys {α : Type} (es : Entries α) : List String := es.map Prod.fst

/-- A Go map: `none` is the nil map, `some es` an initialized map. -/
abbrev GoMap (α : Type) := Option (Entries α)

/-- The entries visible when ranging over a Go map (ranging over a nil
map yields nothing). -/
def goEntries {α : Type} (m : GoMap α) : Entries α := m.getD []

/-- Reading from a Go map: a nil map reads like an empty one. -/
def goLookup {α : Type} (m : GoMap α) (k : String) : Option α :=
  entLookup (goEntries m) k

/-- `http.Header`: header name to ordered list of values.  May be nil. -/
abbrev Header := Entries (List String)

/-- The runtime stream handles (`PostExecInput` / `OutWriter`), observed
up to what they are wired to. -/
inductive Stream where
  | unset
  | stdinHandle
  | stdoutHandle
  | buffer
deriving DecidableEq, Repr

/-- The modelled fragment of Go's `url.URL`: scheme, host, path and the
opaque part.  User info, query, fragment and percent-escaping are not
modelled; all theorems stay inside the subset of inputs on which those
are empty / inert. -/
structure GoURL where
  scheme : String
  host : String
  path : String
  opq : String
deriving DecidableEq, Repr

/-- `DSConfig` - datasource config: URL (a possibly-nil pointer) and
headers (a possibly-nil map). -/
structure DSConfig where
  url : Option GoURL := none
  header : Option Header := none
deriving DecidableEq, Repr

/-- `Config` - the configuration document.  Field defaults are the Go
zero values. -/
structure Config where
  Input : String := ""
  InputFiles : List String := []
  InputDir : String := ""
  ExcludeGlob : List String := []
  OutputFiles : List String := []
  OutputDir : String := ""
  OutputMap : String := ""
  SuppressEmpty : Bool := false
  ExecPipe : Bool := false
  PostExec : List String := []
  OutMode : String := ""
  LDelim : String := ""
  RDelim : String := ""
  DataSources : GoMap DSConfig := none
  Context : GoMap DSConfig := none
  Plugins : GoMap String := none
  PluginTimeout : Nat := 0
  Templates : List String := []
  ExtraHeaders : GoMap Header := none
  PostExecInput : Stream := .unset
  OutWriter : Stream := .unset
deriving DecidableEq, Repr

/-- The all-zero `Config` (every field its Go zero value). -/
def emptyConfig : Config := {}

/-- The values `isZero` dispatches over (`interface\x7b\x7d` restricted to the
three types the config code passes). -/
inductive GoVal where
  | str : String → GoVal
  | strs : List String → GoVal
  | boolean : Bool → GoVal
deriving DecidableEq

/-- `isZero` - zero test for string / string-slice / bool values; any
other type is never zero. -/
def isZero : GoVal → Bool
  | .str s => s = ""
  | .strs l => l.isEmpty
  | .boolean b => !b

/-- `DSConfig.mergeFrom` - override the URL when the override sets one;
adopt the override's header map when ours is nil, otherwise copy the
override's header entries in (per-name overwrite). -/
def DSConfig.mergeFrom (d o : DSConfig) : DSConfig :=
  let d1 := if o.url.isSome then { d with url := o.url } else d
  match d1.header with
  | none => { d1 with header := o.header }
  | some hs =>
    { d1 with
      header := some ((goEntries o.header).foldl
        (fun acc kv => entInsert acc kv.1 kv.2) hs) }

/-- `DSources.mergeFrom` - key-by-key merge of the override map into the
base map.  Ranging over a nil/empty override writes nothing; a non-empty
override written into a nil base map panics (`none`). -/
def dsourcesMergeFrom (d o : GoMap DSConfig) : Option (GoMap DSConfig) :=
  if goEntries o = [] then some d
  else
    match d with
    | none => none
    | some ds =>
      some (some ((goEntries o).foldl
        (fun acc kv =>
          match entLookup acc kv.1 with
          | some c => entInsert acc kv.1 (c.mergeFrom kv.2)
          | none => entInsert acc kv.1 kv.2) ds))

/-- The input-group switch of `Config.MergeFrom`: the first non-zero of
`Input` / `InputDir` / `InputFiles` in the override replaces the whole
group (a `["-"]` override of `InputFiles` is inert); the `Input` and
`InputFiles` branches also clear `OutputDir`. -/
def mergeInput (c o : Config) : Config :=
  if !isZero (.str o.Input) then
    { c with Input := o.Input, InputDir := "", InputFiles := [], OutputDir := "" }
  else if !isZero (.str o.InputDir) then
    { c with Input := "", InputDir := o.InputDir, InputFiles := [] }
  else if !isZero (.strs o.InputFiles) then
    if o.InputFiles = ["-"] then c
    else { c with Input := "", InputFiles := o.InputFiles, InputDir := "", OutputDir := "" }
  else c

/-- `MergeFrom`: a non-zero override `OutputMap` clears the other
output selectors. -/
def mergeOutMap (c o : Config) : Config :=
  if !isZero (.str o.OutputMap) then
    { c with OutputDir := "", OutputFiles := [], OutputMap := o.OutputMap }
  else c

/-- `MergeFrom`: a non-zero override `OutputDir` clears the other
output selectors. -/
def mergeOutDir (c o : Config) : Config :=
  if !isZero (.str o.OutputDir) then
    { c with OutputDir := o.OutputDir, OutputFiles := [], OutputMap := "" }
  else c

/-- `MergeFrom`: a non-zero override `OutputFiles` clears the other
output selectors. -/
def mergeOutFiles (c o : Config) : Config :=
  if !isZero (.strs o.OutputFiles) then
    { c with OutputDir := "", OutputFiles := o.OutputFiles, OutputMap := "" }
  else c

/-- `MergeFrom`: a set override `ExecPipe` copies itself, `PostExec`
and `OutputFiles` wholesale. -/
def mergeExecPipe (c o : Config) : Config :=
  if !isZero (.boolean o.ExecPipe) then
    { c with ExecPipe := o.ExecPipe, PostExec := o.PostExec, OutputFiles := o.OutputFiles }
  else c

/-- `MergeFrom`: non-zero scalar / list overrides replace wholesale. -/
def mergeExcludes (c o : Config) : Config :=
  if !isZero (.strs o.ExcludeGlob) then { c with ExcludeGlob := o.ExcludeGlob } else c

/-- `MergeFrom`: the `OutMode` (`chmod`) override. -/
def mergeOutMode (c o : Config) : Config :=
  if !isZero (.str o.OutMode) then { c with OutMode := o.OutMode } else c

/-- `MergeFrom`: the left-delimiter override. -/
def mergeLDelim (c o : Config) : Config :=
  if !isZero (.str o.LDelim) then { c with LDelim := o.LDelim } else c

/-- `MergeFrom`: the right-delimiter override. -/
def mergeRDelim (c o : Config) : Config :=
  if !isZero (.str o.RDelim) then { c with RDelim := o.RDelim } else c

/-- `MergeFrom`: the templates override. -/
def mergeTemplates (c o : Config) : Config :=
  if !isZero (.strs o.Templates) then { c with Templates := o.Templates } else c

/-- The scalar / list / group part of `Config.MergeFrom` (the input
group switch and the field-by-field overrides, in source order). -/
def mergeFields (c o : Config) : Config :=
  mergeTemplates (mergeRDelim (mergeLDelim (mergeOutMode (mergeExcludes
    (mergeExecPipe (mergeOutFiles (mergeOutDir (mergeOutMap (mergeInput c o) o) o) o) o) o) o) o) o) o

/-- The map part of `Config.MergeFrom`: merge the datasource and
context maps, then copy the override's plugin entries into the (not
self-initializing) plugin map. -/
def mergeMaps (c o : Config) : Option Config :=
  match dsourcesMergeFrom c.DataSources o.DataSources with
  | none => none
  | some ds =>
    match dsourcesMergeFrom c.Context o.Context with
    | none => none
    | some ctx =>
      if (goEntries o.Plugins).length > 0 then
        match c.Plugins with
        | none => none
        | some ps =>
          some { c with
            DataSources := ds
            Context := ctx
            Plugins := some ((goEntries o.Plugins).foldl
              (fun acc kv => entInsert acc kv.1 kv.2) ps) }
      else some { c with DataSources := ds, Context := ctx }

/-- `Config.MergeFrom` - use `c` as the defaults and override it with
the non-zero values of `o` (the field stage, then the map stage).
`none` marks the panic of a plugin / datasource write into a nil
map. -/
def Config.MergeFrom (c o : Config) : Option Config :=
  mergeMaps (mergeFields c o) o

/-- The distinct validation failures (the code formats a message for
each; only their identity matters here). -/
inductive VErr where
  | onlyOneOf (a b : String)
  | mustPair (a b : String)
  | inOutCountMismatch (o f : Nat)
  | execPipeNeedsPostExec
  | outputFilesWithExecPipe
deriving DecidableEq, Repr

/-- The loop of `notTogether`, carrying the name already found set. -/
def notTogetherGo : String → List (String × GoVal) → Option VErr
  | _, [] => none
  | found, (name, v) :: rest =>
    if isZero v then notTogetherGo found rest
    else if found ≠ "" then some (.onlyOneOf found name)
    else notTogetherGo name rest

/-- `notTogether` - at most one of the named values may be non-zero. -/
def notTogether (names : List String) (values : List GoVal) : Option VErr :=
  notTogetherGo "" (names.zip values)

/-- `mustTogether` - a non-zero left value requires a non-zero right. -/
def mustTogether (left right : String) (l r : GoVal) : Option VErr :=
  if !isZero l && isZero r then some (.mustPair left right) else none

/-- Short-circuit chaining of checks: the first error wins. -/
def orE (a b : Option VErr) : Option VErr :=
  match a with
  | some e => some e
  | none => b

/-- Check 6 of `Validate`: the input count (a non-empty `Input` counts
as one input when `InputFiles` is empty) must equal the `OutputFiles`
count unless `ExecPipe` is set. -/
def Config.check6 (c : Config) : Option VErr :=
  let f := c.InputFiles.length
  let f := if f = 0 && c.Input ≠ "" then 1 else f
  let o := c.OutputFiles.length
  if f ≠ o && !c.ExecPipe then some (.inOutCountMismatch o f) else none

/-- Check 7 of `Validate`: `ExecPipe` requires a `PostExec` command. -/
def Config.check7 (c : Config) : Option VErr :=
  if c.ExecPipe && c.PostExec.length = 0 then some .execPipeNeedsPostExec else none

/-- Check 8 of `Validate`: with `ExecPipe`, a non-empty `OutputFiles`
whose first element is not `-` is rejected. -/
def Config.check8 (c : Config) : Option VErr :=
  if c.ExecPipe && (c.OutputFiles.length > 0 && c.OutputFiles.head? ≠ some "-") then
    some .outputFilesWithExecPipe
  else none

/-- Checks 1 through 7 of `Validate`, in order. -/
def Config.validate7 (c : Config) : Option VErr :=
  orE (notTogether ["in", "inputFiles", "inputDir"]
        [.str c.Input, .strs c.InputFiles, .str c.InputDir])
    (orE (notTogether ["outputFiles", "outputDir", "outputMap"]
        [.strs c.OutputFiles, .str c.OutputDir, .str c.OutputMap])
      (orE (notTogether ["outputDir", "outputMap", "execPipe"]
          [.str c.OutputDir, .str c.OutputMap, .boolean c.ExecPipe])
        (orE (mustTogether "outputDir" "inputDir" (.str c.OutputDir) (.str c.InputDir))
          (orE (mustTogether "outputMap" "inputDir" (.str c.OutputMap) (.str c.InputDir))
            (orE c.check6 c.check7)))))

/-- `Config.Validate` - the eight checks in order, first failure wins. -/
def Config.Validate (c : Config) : Option VErr :=
  orE c.validate7 c.check8

/-- Statement 1 of `ApplyDefaults`: an `InputDir` with no output
destination defaults `OutputDir` to the current directory. -/
def dfltOutDir (c : Config) : Config :=
  if c.InputDir ≠ "" ∧ c.OutputDir = "" ∧ c.OutputMap = "" then
    { c with OutputDir := "." }
  else c

/-- Statement 2 of `ApplyDefaults`: no input selector defaults
`InputFiles` to stdin. -/
def dfltInFiles (c : Config) : Config :=
  if c.Input = "" ∧ c.InputDir = "" ∧ c.InputFiles.length = 0 then
    { c with InputFiles := ["-"] }
  else c

/-- Statement 3 of `ApplyDefaults`: no output selector and no exec
pipe defaults `OutputFiles` to stdout. -/
def dfltOutFiles (c : Config) : Config :=
  if c.OutputDir = "" ∧ c.OutputMap = "" ∧ c.OutputFiles.length = 0 ∧ c.ExecPipe = false then
    { c with OutputFiles := ["-"] }
  else c

/-- Statement 4 of `ApplyDefaults`: the default left delimiter. -/
def dfltLDelim (c : Config) : Config :=
  if c.LDelim = "" then { c with LDelim := "\x7b\x7b" } else c

/-- Statement 5 of `ApplyDefaults`: the default right delimiter. -/
def dfltRDelim (c : Config) : Config :=
  if c.RDelim = "" then { c with RDelim := "\x7d\x7d" } else c

/-- Statement 6 of `ApplyDefaults`: with `ExecPipe` both streams are
wired to a fresh buffer and `OutputFiles` is forced to stdout,
otherwise the streams are the process's stdin / stdout. -/
def dfltStreams (c : Config) : Config :=
  if c.ExecPipe then
    { c with PostExecInput := .buffer, OutWriter := .buffer, OutputFiles := ["-"] }
  else
    { c with PostExecInput := .stdinHandle, OutWriter := .stdoutHandle }

/-- Statement 7 of `ApplyDefaults`: the 5-second plugin timeout
(5000000000 nanoseconds). -/
def dfltTimeout (c : Config) : Config :=
  if c.PluginTimeout = 0 then { c with PluginTimeout := 5000000000 } else c

/-- `Config.ApplyDefaults` - fill unset fields with the operational
defaults and wire the I/O streams, statements in source order.
`os.Stdin`/`os.Stdout` and the fresh `bytes.Buffer` are modelled by
`Stream` handles. -/
def Config.ApplyDefaults (c : Config) : Config :=
  dfltTimeout (dfltStreams (dfltRDelim (dfltLDelim (dfltOutFiles (dfltInFiles (dfltOutDir c))))))

/-! ## The modelled fragment of Go's `net/url`

`parseSourceURL` / `absFileURL` run on Linux, where `filepath.ToSlash`
is the identity and `filepath.VolumeName` is always empty, so the
Windows-specific branches of the source are no-ops and are noted as such
below.  `url.Parse` is modelled for inputs without user info, port,
query, fragment or percent-escapes (for those, `EscapedPath` is the
path itself and `setPath` stores the string unchanged); all concrete
inputs used in the theorems lie in this subset. -/

/-- The scan of `getScheme`: letters continue a scheme; digits and
`+ - .` continue one unless first; `:` ends one (an empty scheme is an
error, `none`); anything else means the raw string has no scheme. -/
def getSchemeGo (raw : List Char) : List Char → List Char → Option (List Char × List Char)
  | _, [] => some ([], raw)
  | acc, c :: rest =>
    if c.isAlpha then getSchemeGo raw (c :: acc) rest
    else if c.isDigit || c = '+' || c = '-' || c = '.' then
      if acc = [] then some ([], raw) else getSchemeGo raw (c :: acc) rest
    else if c = ':' then
      if acc = [] then none else some (acc.reverse, rest)
    else some ([], raw)

/-- `url.Parse` on the modelled subset: split off the scheme
(lowercased), detect a rootless opaque part, reject a colon in the
first path segment of a scheme-less URL, split off a `//` authority as
the host, and keep the remainder as the path. -/
def urlParse (rawURL : String) : Option GoURL :=
  match getSchemeGo rawURL.data [] rawURL.data with
  | none => none
  | some (sch, rest) =>
    let scheme : String := ⟨sch.map Char.toLower⟩
    if rest.head? ≠ some '/' then
      if scheme ≠ "" then some { scheme := scheme, host := "", path := "", opq := ⟨rest⟩ }
      else if (rest.takeWhile (fun c => c ≠ '/')).contains ':' then none
      else some { scheme := scheme, host := "", path := ⟨rest⟩, opq := "" }
    else if (scheme ≠ "" ∨ rest.take 3 ≠ ['/', '/', '/']) ∧ rest.take 2 = ['/', '/'] then
      let after := rest.drop 2
      some { scheme := scheme, host := ⟨after.takeWhile (fun c => c ≠ '/')⟩,
             path := ⟨after.dropWhile (fun c => c ≠ '/')⟩, opq := "" }
    else some { scheme := scheme, host := "", path := ⟨rest⟩, opq := "" }

/-- `base[:strings.LastIndex(base, "/")+1]`: the prefix of `base` up to
and including its last slash (empty when there is none). -/
def upToLastSlash (l : List Char) : List Char :=
  ((l.reverse).dropWhile (fun c => c ≠ '/')).reverse

/-- The elements produced by repeatedly applying `strings.Cut(_, "/")`:
a split on `/` that keeps empty elements. -/
def splitOnSlash : List Char → List (List Char)
  | [] => [[]]
  | c :: rest =>
    if c = '/' then [] :: splitOnSlash rest
    else
      match splitOnSlash rest with
      | s :: ss => (c :: s) :: ss
      | [] => [[c]]

/-- `str[:strings.LastIndexByte(str, '/')]`: the prefix of `str` before
its last slash, or `none` when there is no slash (index `-1`). -/
def beforeLastSlash : List Char → Option (List Char)
  | [] => none
  | c :: rest =>
    match beforeLastSlash rest with
    | some p => some (c :: p)
    | none => if c = '/' then some [] else none

/-- The element loop of `resolvePath`, carrying the output builder
`dst` (which always starts with the `/` written up front), the `first`
flag and the last element seen.  `.` is dropped; `..` truncates `dst`
after its last slash (or resets it); any other element is written,
preceded by a slash unless it is the first write. -/
def rpLoop : List (List Char) → List Char → Bool → List Char → List Char × List Char
  | [], dst, _, lastElem => (dst, lastElem)
  | e :: rest, dst, first, _ =>
    if e = ['.'] then rpLoop rest dst false e
    else if e = ['.', '.'] then
      match beforeLastSlash dst.tail with
      | none => rpLoop rest ['/'] true e
      | some p => rpLoop rest ('/' :: p) first e
    else rpLoop rest (dst ++ (if first then [] else ['/']) ++ e) false e

/-- `resolvePath` from `net/url`: merge `ref` with the directory of
`base`, then remove dot segments; a trailing slash is kept after a
final `.` or `..`, and the doubled leading slash is collapsed. -/
def resolvePath (base ref : String) : String :=
  let full : List Char :=
    if ref = "" then base.data
    else if ref.data.head? ≠ some '/' then upToLastSlash base.data ++ ref.data
    else ref.data
  if full = [] then ""
  else
    let dl := rpLoop (splitOnSlash full) ['/'] true []
    let dst := if dl.2 = ['.'] ∨ dl.2 = ['.', '.'] then dl.1 ++ ['/'] else dl.1
    match dst with
    | a :: b :: rest => if b = '/' then ⟨b :: rest⟩ else ⟨a :: b :: rest⟩
    | _ => ⟨dst⟩

/-- `URL.ResolveReference` on the modelled subset (no user info, query
or fragment): an absolute or host-carrying reference stands alone, an
opaque reference replaces everything, and otherwise the reference path
is resolved against the base path with dot-segment removal. -/
def resolveReference (u ref : GoURL) : GoURL :=
  let scheme := if ref.scheme = "" then u.scheme else ref.scheme
  if ref.scheme ≠ "" ∨ ref.host ≠ "" then
    { scheme := scheme, host := ref.host, path := resolvePath ref.path "", opq := ref.opq }
  else if ref.opq ≠ "" then
    { scheme := scheme, host := "", path := "", opq := ref.opq }
  else
    { scheme := scheme, host := u.host, path := resolvePath u.path ref.path, opq := "" }

/-- `absFileURL` - resolve `value` against a `file` URL anchored at the
working directory (`os.Getwd` is the `wd` parameter, already
slash-normalized on Linux).  When `wd` is not absolute-rooted the
source indexes `resolved.Path[2]`, which panics (`none`) on a short
path. -/
def absFileURL (wd value : String) : Option GoURL :=
  let baseURL : GoURL := { scheme := "file", host := "", path := wd ++ "/", opq := "" }
  match urlParse value with
  | none => none
  | some relURL =>
    let resolved := resolveReference baseURL relURL
    -- strings.HasPrefix(wd, "/"): the first character is a slash
    if wd.data.head? = some '/' then some resolved
    else
      match resolved.path.data.get? 2 with
      | none => none
      | some ch =>
        if ch = ':' then some { resolved with path := ⟨resolved.path.data.drop 1⟩ }
        else some resolved

/-- `parseSourceURL` - `-` becomes `stdin://`; on Linux
`filepath.ToSlash` is the identity and `filepath.VolumeName` is always
empty, so the Windows `file:` prefixing and drive-letter slash-stripping
are skipped; a URL that is not absolute (empty scheme) is resolved as a
path relative to the working directory. -/
def parseSourceURL (wd value : String) : Option GoURL :=
  let value := if value = "-" then "stdin://" else value
  match urlParse value with
  | none => none
  | some srcURL =>
    if srcURL.scheme ≠ "" then some srcURL
    else absFileURL wd value

/-! ## Flag parsing -/

/-- `strings.Cut`-style first split of a character list at `sep`. -/
def cutChars (sep : Char) : List Char → Option (List Char × List Char)
  | [] => none
  | c :: rest =>
    if c = sep then some ([], rest)
    else
      match cutChars sep rest with
      | some (a, b) => some (c :: a, b)
      | none => none

/-- `path.Base`: strip trailing slashes, keep the part after the last
slash; `.` for an empty path, `/` for an all-slash path. -/
def pathBase (p : String) : String :=
  if p = "" then "."
  else
    let l := (p.data.reverse.dropWhile (fun c => c = '/')).reverse
    let base := (l.reverse.takeWhile (fun c => c ≠ '/')).reverse
    if base = [] then "/" else ⟨base⟩

/-- `parseDatasourceArg` - `alias=location`, or a bare path whose alias
is the text before its first `.`; a bare path with a directory
component is an error. -/
def parseDatasourceArg (wd value : String) : Option (String × DSConfig) :=
  match cutChars '=' value.data with
  | none =>
    let f := value
    let key : String :=
      match cutChars '.' value.data with
      | some (a, _) => ⟨a⟩
      | none => value
    if pathBase f ≠ f then none
    else
      match absFileURL wd f with
      | none => none
      | some u => some (key, { url := some u, header := none })
  | some (k, rest) =>
    match parseSourceURL wd ⟨rest⟩ with
    | none => none
    | some u => some (⟨k⟩, { url := some u, header := none })

/-- The ASCII white space set of `strings.TrimSpace` (the Unicode cases
do not arise for the modelled inputs). -/
def asciiSpace (c : Char) : Bool :=
  c = ' ' || c.toNat = 9 || c.toNat = 10 || c.toNat = 11 || c.toNat = 12 || c.toNat = 13

/-- `strings.TrimSpace` on the modelled subset. -/
def trimSpace (s : String) : String :=
  ⟨((s.data.dropWhile asciiSpace).reverse.dropWhile asciiSpace).reverse⟩

/-- The valid header-field bytes of `net/textproto` (letters, digits
and the token punctuation, including apostrophe 39 and backquote 96). -/
def validHeaderFieldChar (c : Char) : Bool :=
  c.isAlphanum || ("!#$%&*+-.^_|~".toList.contains c) || c.toNat = 39 || c.toNat = 96

/-- The canonicalization loop: uppercase after a start or a hyphen,
lowercase otherwise. -/
def canonChars : Bool → List Char → List Char
  | _, [] => []
  | upper, c :: rest =>
    let c := if upper then c.toUpper else c.toLower
    c :: canonChars (c = '-') rest

/-- `http.CanonicalHeaderKey`: canonical capitalization, or the string
unchanged when it holds an invalid header-field byte. -/
def canonicalHeaderKey (s : String) : String :=
  if s.data.all validHeaderFieldChar then ⟨canonChars true s.data⟩ else s

/-- `splitHeader` - split `Header-Name: value` at the first `:`,
canonicalizing the name.  `none` is the invalid-format error. -/
def splitHeader (header : String) : Option (String × String) :=
  match cutChars ':' header.data with
  | none => none
  | some (n, v) => some (canonicalHeaderKey ⟨n⟩, ⟨v⟩)

/-- `splitHeaderArg` - split `alias=Header-Name: value` at the first
`=`.  `none` is the invalid-option error. -/
def splitHeaderArg (arg : String) : Option (String × String × String) :=
  match cutChars '=' arg.data with
  | none => none
  | some (al, rest) =>
    match splitHeader ⟨rest⟩ with
    | none => none
    | some (n, v) => some (⟨al⟩, n, v)

/-- `parseHeaderArgs` - fold the header flags into an alias → header-set
map, appending the trimmed value under `(alias, name)`. -/
def parseHeaderArgs (headerArgs : List String) : Option (Entries Header) :=
  headerArgs.foldlM
    (fun hs v =>
      match splitHeaderArg v with
      | none => none
      | some (ds, name, value) =>
        let h := (entLookup hs ds).getD []
        some (entInsert hs ds
          (entInsert h name (((entLookup h name).getD []) ++ [trimSpace value]))))
    []

/-- One datasource flag: parse it and store the descriptor, initializing
the map when nil. -/
def addDataSource (wd : String) (c : Config) (d : String) : Option Config :=
  match parseDatasourceArg wd d with
  | none => none
  | some kds =>
    some { c with DataSources := some (entInsert (goEntries c.DataSources) kds.1 kds.2) }

/-- One context flag: parse it and store the descriptor, initializing
the map when nil. -/
def addContext (wd : String) (c : Config) (d : String) : Option Config :=
  match parseDatasourceArg wd d with
  | none => none
  | some kds =>
    some { c with Context := some (entInsert (goEntries c.Context) kds.1 kds.2) }

/-- One step of the header reconciliation loop: an alias found in the
context map has its descriptor's header set replaced and is deleted
from the pending map; likewise, independently, for the datasource
map. -/
def reconcileStep (acc : Config × Entries Header) (kv : String × Header) :
    Config × Entries Header :=
  let c := acc.1
  let pending := acc.2
  let a1 : Config × Entries Header :=
    match goLookup c.Context kv.1 with
    | some d =>
      ({ c with Context := some (entInsert (goEntries c.Context) kv.1 { d with header := some kv.2 }) },
       entErase pending kv.1)
    | none => (c, pending)
  match goLookup a1.1.DataSources kv.1 with
  | some d =>
    ({ a1.1 with
        DataSources := some (entInsert (goEntries a1.1.DataSources) kv.1 { d with header := some kv.2 }) },
     entErase a1.2 kv.1)
  | none => a1

/-- `Config.ParseDataSourceFlags` - store the datasource and context
flags, parse the header flags, attach each parsed header set to a
matching context / datasource descriptor (removing the alias from the
pending map), and keep a non-empty remainder as `ExtraHeaders`. -/
def Config.ParseDataSourceFlags (wd : String) (c : Config)
    (datasources contexts headers : List String) : Option Config :=
  match datasources.foldlM (addDataSource wd) c with
  | none => none
  | some c1 =>
    match contexts.foldlM (addContext wd) c1 with
    | none => none
    | some c2 =>
      match parseHeaderArgs headers with
      | none => none
      | some hdrs =>
        let cp := hdrs.foldl reconcileStep (c2, hdrs)
        if cp.2.length > 0 then some { cp.1 with ExtraHeaders := some cp.2 }
        else some cp.1

/-- `strconv.ParseUint(s, 8, 32)`: every character an octal digit, the
value below `2^32`; `none` is the parse error. -/
def parseUintOct (s : String) : Option Nat :=
  if s.data = [] then none
  else if s.data.all (fun c => 48 ≤ c.toNat && c.toNat ≤ 55) then
    let n := s.data.foldl (fun n c => n * 8 + (c.toNat - 48)) 0
    if n ≤ 4294967295 then some n else none
  else none

/-- `Config.GetMode` - parse `OutMode` (with an implicit leading zero)
as an octal file mode; report whether it was an explicit override; a
zero mode with an inline input defaults to `0644`. -/
def Config.GetMode (c : Config) : Option (Nat × Bool) :=
  let modeOverride := c.OutMode ≠ ""
  match parseUintOct ("0" ++ c.OutMode) with
  | none => none
  | some m =>
    let mode := if m = 0 ∧ c.Input ≠ "" then 0o644 else m
    some (mode, modeOverride)

/-! ## Predicates and concrete configurations used by the theorems -/

/-- A plain path character: letter, digit, `-`, `_` or `.` — no
separator, no URL metacharacter, nothing `EscapedPath` would escape. -/
def goodPathChar (c : Char) : Bool :=
  c.isAlphanum || c = '-' || c = '_' || c = '.'

/-- A valid path segment: non-empty, not a dot segment, plain
characters only. -/
def goodSeg (s : List Char) : Prop :=
  s ≠ [] ∧ s ≠ ['.'] ∧ s ≠ ['.', '.'] ∧ s.all goodPathChar

instance : DecidablePred goodSeg := fun s => by unfold goodSeg; infer_instance

/-- Join segments with `/` separators. -/
def joinSlash : List (List Char) → List Char
  | [] => []
  | [s] => s
  | s :: rest => s ++ '/' :: joinSlash rest

/-- The absolute slash-normalized path with the given segments (the
shape of a Linux working directory). -/
def mkAbs (ws : List (List Char)) : String := ⟨'/' :: joinSlash ws⟩

/-- The relative slash-normalized path with the given segments. -/
def mkRel (ps : List (List Char)) : String := ⟨joinSlash ps⟩

/-- The observable state `ApplyDefaults` establishes: each defaulting
statement's goal holds of the result. -/
def defaulted (c : Config) : Prop :=
  (c.InputDir = "" ∨ c.OutputDir ≠ "" ∨ c.OutputMap ≠ "") ∧
  (c.Input ≠ "" ∨ c.InputDir ≠ "" ∨ c.InputFiles ≠ []) ∧
  (c.OutputDir ≠ "" ∨ c.OutputMap ≠ "" ∨ c.OutputFiles ≠ [] ∨ c.ExecPipe = true) ∧
  c.LDelim ≠ "" ∧
  c.RDelim ≠ "" ∧
  (c.ExecPipe = true →
    c.PostExecInput = .buffer ∧ c.OutWriter = .buffer ∧ c.OutputFiles = ["-"]) ∧
  (c.ExecPipe = false →
    c.PostExecInput = .stdinHandle ∧ c.OutWriter = .stdoutHandle) ∧
  c.PluginTimeout ≠ 0

/-- A config with `ExecPipe`, a post-exec command, and the two-element
`OutputFiles` value `["-", "x"]`. -/
def execPipeExtraOutput : Config :=
  { ExecPipe := true, PostExec := ["cmd"], OutputFiles := ["-", "x"] }

/-- A config with two input files and one (stdin-sentinel) output file,
accepted because `ExecPipe` is set. -/
def execPipeTwoInputs : Config :=
  { InputFiles := ["a", "b"], OutputFiles := ["-"], ExecPipe := true, PostExec := ["cmd"] }

/-- A base config with only an output directory set. -/
def outputDirBase : Config := { OutputDir := "d" }

/-- An override config with only the inline `Input` set: its output
selectors and `ExecPipe` are all zero. -/
def inputOnlyOverride : Config := { Input := "x" }

/-- A config whose datasource `foo` already carries a header under
another name. -/
def dsWithOldHeader : Config :=
  { DataSources := some [("foo", { url := none, header := some [("Old-Header", ["v"])] })] }

/-- A config where the alias `foo` names both a context and a
datasource descriptor. -/
def bothMapsFoo : Config :=
  { DataSources := some [("foo", { url := none, header := none })],
    Context := some [("foo", { url := none, header := none })] }

/-! ## Helper lemmas -/

theorem orE_isSome (a b : Option VErr) : (orE a b).isSome = (a.isSome || b.isSome) := by
  cases a <;> rfl

theorem orE_none_left (b : Option VErr) : orE none b = b := rfl

/-! ## C5: ApplyDefaults is idempotent -/

@[simp] theorem dfltOutDir_Input (c : Config) : (dfltOutDir c).Input = c.Input := by
  unfold dfltOutDir; split_ifs <;> rfl

@[simp] theorem dfltOutDir_InputFiles (c : Config) : (dfltOutDir c).InputFiles = c.InputFiles := by
  unfold dfltOutDir; split_ifs <;> rfl

@[simp] theorem dfltOutDir_InputDir (c : Config) : (dfltOutDir c).InputDir = c.InputDir := by
  unfold dfltOutDir; split_ifs <;> rfl

@[simp] theorem dfltOutDir_OutputFiles (c : Config) : (dfltOutDir c).OutputFiles = c.OutputFiles := by
  unfold dfltOutDir; split_ifs <;> rfl

@[simp] theorem dfltOutDir_OutputMap (c : Config) : (dfltOutDir c).OutputMap = c.OutputMap := by
  unfold dfltOutDir; split_ifs <;> rfl

@[simp] theorem dfltOutDir_ExecPipe (c : Config) : (dfltOutDir c).ExecPipe = c.ExecPipe := by
  unfold dfltOutDir; split_ifs <;> rfl

@[simp] theorem dfltOutDir_LDelim (c : Config) : (dfltOutDir c).LDelim = c.LDelim := by
  unfold dfltOutDir; split_ifs <;> rfl

@[simp] theorem dfltOutDir_RDelim (c : Config) : (dfltOutDir c).RDelim = c.RDelim := by
  unfold dfltOutDir; split_ifs <;> rfl

@[simp] theorem dfltOutDir_PostExecInput (c : Config) : (dfltOutDir c).PostExecInput = c.PostExecInput := by
  unfold dfltOutDir; split_ifs <;> rfl

@[simp] theorem dfltOutDir_OutWriter (c : Config) : (dfltOutDir c).OutWriter = c.OutWriter := by
  unfold dfltOutDir; split_ifs <;> rfl

@[simp] theorem dfltOutDir_PluginTimeout (c : Config) : (dfltOutDir c).PluginTimeout = c.PluginTimeout := by
  unfold dfltOutDir; split_ifs <;> rfl

@[simp] theorem dfltInFiles_Input (c : Config) : (dfltInFiles c).Input = c.Input := by
  unfold dfltInFiles; split_ifs <;> rfl

@[simp] theorem dfltInFiles_InputDir (c : Config) : (dfltInFiles c).InputDir = c.InputDir := by
  unfold dfltInFiles; split_ifs <;> rfl

@[simp] theorem dfltInFiles_OutputFiles (c : Config) : (dfltInFiles c).OutputFiles = c.OutputFiles := by
  unfold dfltInFiles; split_ifs <;> rfl

@[simp] theorem dfltInFiles_OutputDir (c : Config) : (dfltInFiles c).OutputDir = c.OutputDir := by
  unfold dfltInFiles; split_ifs <;> rfl

@[simp] theorem dfltInFiles_OutputMap (c : Config) : (dfltInFiles c).OutputMap = c.OutputMap := by
  unfold dfltInFiles; split_ifs <;> rfl

@[simp] theorem dfltInFiles_ExecPipe (c : Config) : (dfltInFiles c).ExecPipe = c.ExecPipe := by
  unfold dfltInFiles; split_ifs <;> rfl

@[simp] theorem dfltInFiles_LDelim (c : Config) : (dfltInFiles c).LDelim = c.LDelim := by
  unfold dfltInFiles; split_ifs <;> rfl

@[simp] theorem dfltInFiles_RDelim (c : Config) : (dfltInFiles c).RDelim = c.RDelim := by
  unfold dfltInFiles; split_ifs <;> rfl

@[simp] theorem dfltInFiles_PostExecInput (c : Config) : (dfltInFiles c).PostExecInput = c.PostExecInput := by
  unfold dfltInFiles; split_ifs <;> rfl

@[simp] theorem dfltInFiles_OutWriter (c : Config) : (dfltInFiles c).OutWriter = c.OutWriter := by
  unfold dfltInFiles; split_ifs <;> rfl

@[simp] theorem dfltInFiles_PluginTimeout (c : Config) : (dfltInFiles c).PluginTimeout = c.PluginTimeout := by
  unfold dfltInFiles; split_ifs <;> rfl

@[simp] theorem dfltOutFiles_Input (c : Config) : (dfltOutFiles c).Input = c.Input := by
  unfold dfltOutFiles; split_ifs <;> rfl

@[simp] theorem dfltOutFiles_InputFiles (c : Config) : (dfltOutFiles c).InputFiles = c.InputFiles := by
  unfold dfltOutFiles; split_ifs <;> rfl

@[simp] theorem dfltOutFiles_InputDir (c : Config) : (dfltOutFiles c).InputDir = c.InputDir := by
  unfold dfltOutFiles; split_ifs <;> rfl

@[simp] theorem dfltOutFiles_OutputDir (c : Config) : (dfltOutFiles c).OutputDir = c.OutputDir := by
  unfold dfltOutFiles; split_ifs <;> rfl

@[simp] theorem dfltOutFiles_OutputMap (c : Config) : (dfltOutFiles c).OutputMap = c.OutputMap := by
  unfold dfltOutFiles; split_ifs <;> rfl

@[simp] theorem dfltOutFiles_ExecPipe (c : Config) : (dfltOutFiles c).ExecPipe = c.ExecPipe := by
  unfold dfltOutFiles; split_ifs <;> rfl

@[simp] theorem dfltOutFiles_LDelim (c : Config) : (dfltOutFiles c).LDelim = c.LDelim := by
  unfold dfltOutFiles; split_ifs <;> rfl

@[simp] theorem dfltOutFiles_RDelim (c : Config) : (dfltOutFiles c).RDelim = c.RDelim := by
  unfold dfltOutFiles; split_ifs <;> rfl

@[simp] theorem dfltOutFiles_PostExecInput (c : Config) : (dfltOutFiles c).PostExecInput = c.PostExecInput := by
  unfold dfltOutFiles; split_ifs <;> rfl

@[simp] theorem dfltOutFiles_OutWriter (c : Config) : (dfltOutFiles c).OutWriter = c.OutWriter := by
  unfold dfltOutFiles; split_ifs <;> rfl

@[simp] theorem dfltOutFiles_PluginTimeout (c : Config) : (dfltOutFiles c).PluginTimeout = c.PluginTimeout := by
  unfold dfltOutFiles; split_ifs <;> rfl

@[simp] theorem dfltLDelim_Input (c : Config) : (dfltLDelim c).Input = c.Input := by
  unfold dfltLDelim; split_ifs <;> rfl

@[simp] theorem dfltLDelim_InputFiles (c : Config) : (dfltLDelim c).InputFiles = c.InputFiles := by
  unfold dfltLDelim; split_ifs <;> rfl

@[simp] theorem dfltLDelim_InputDir (c : Config) : (dfltLDelim c).InputDir = c.InputDir := by
  unfold dfltLDelim; split_ifs <;> rfl

@[simp] theorem dfltLDelim_OutputFiles (c : Config) : (dfltLDelim c).OutputFiles = c.OutputFiles := by
  unfold dfltLDelim; split_ifs <;> rfl

@[simp] theorem dfltLDelim_OutputDir (c : Config) : (dfltLDelim c).OutputDir = c.OutputDir := by
  unfold dfltLDelim; split_ifs <;> rfl

@[simp] theorem dfltLDelim_OutputMap (c : Config) : (dfltLDelim c).OutputMap = c.OutputMap := by
  unfold dfltLDelim; split_ifs <;> rfl

@[simp] theorem dfltLDelim_ExecPipe (c : Config) : (dfltLDelim c).ExecPipe = c.ExecPipe := by
  unfold dfltLDelim; split_ifs <;> rfl

@[simp] theorem dfltLDelim_RDelim (c : Config) : (dfltLDelim c).RDelim = c.RDelim := by
  unfold dfltLDelim; split_ifs <;> rfl

@[simp] theorem dfltLDelim_PostExecInput (c : Config) : (dfltLDelim c).PostExecInput = c.PostExecInput := by
  unfold dfltLDelim; split_ifs <;> rfl

@[simp] theorem dfltLDelim_OutWriter (c : Config) : (dfltLDelim c).OutWriter = c.OutWriter := by
  unfold dfltLDelim; split_ifs <;> rfl

@[simp] theorem dfltLDelim_PluginTimeout (c : Config) : (dfltLDelim c).PluginTimeout = c.PluginTimeout := by
  unfold dfltLDelim; split_ifs <;> rfl

@[simp] theorem dfltRDelim_Input (c : Config) : (dfltRDelim c).Input = c.Input := by
  unfold dfltRDelim; split_ifs <;> rfl

@[simp] theorem dfltRDelim_InputFiles (c : Config) : (dfltRDelim c).InputFiles = c.InputFiles := by
  unfold dfltRDelim; split_ifs <;> rfl

@[simp] theorem dfltRDelim_InputDir (c : Config) : (dfltRDelim c).InputDir = c.InputDir := by
  unfold dfltRDelim; split_ifs <;> rfl

@[simp] theorem dfltRDelim_OutputFiles (c : Config) : (dfltRDelim c).OutputFiles = c.OutputFiles := by
  unfold dfltRDelim; split_ifs <;> rfl

@[simp] theorem dfltRDelim_OutputDir (c : Config) : (dfltRDelim c).OutputDir = c.OutputDir := by
  unfold dfltRDelim; split_ifs <;> rfl

@[simp] theorem dfltRDelim_OutputMap (c : Config) : (dfltRDelim c).OutputMap = c.OutputMap := by
  unfold dfltRDelim; split_ifs <;> rfl

@[simp] theorem dfltRDelim_ExecPipe (c : Config) : (dfltRDelim c).ExecPipe = c.ExecPipe := by
  unfold dfltRDelim; split_ifs <;> rfl

@[simp] theorem dfltRDelim_LDelim (c : Config) : (dfltRDelim c).LDelim = c.LDelim := by
  unfold dfltRDelim; split_ifs <;> rfl

@[simp] theorem dfltRDelim_PostExecInput (c : Config) : (dfltRDelim c).PostExecInput = c.PostExecInput := by
  unfold dfltRDelim; split_ifs <;> rfl

@[simp] theorem dfltRDelim_OutWriter (c : Config) : (dfltRDelim c).OutWriter = c.OutWriter := by
  unfold dfltRDelim; split_ifs <;> rfl

@[simp] theorem dfltRDelim_PluginTimeout (c : Config) : (dfltRDelim c).PluginTimeout = c.PluginTimeout := by
  unfold dfltRDelim; split_ifs <;> rfl

@[simp] theorem dfltStreams_Input (c : Config) : (dfltStreams c).Input = c.Input := by
  unfold dfltStreams; split_ifs <;> rfl

@[simp] theorem dfltStreams_InputFiles (c : Config) : (dfltStreams c).InputFiles = c.InputFiles := by
  unfold dfltStreams; split_ifs <;> rfl

@[simp] theorem dfltStreams_InputDir (c : Config) : (dfltStreams c).InputDir = c.InputDir := by
  unfold dfltStreams; split_ifs <;> rfl

@[simp] theorem dfltStreams_OutputDir (c : Config) : (dfltStreams c).OutputDir = c.OutputDir := by
  unfold dfltStreams; split_ifs <;> rfl

@[simp] theorem dfltStreams_OutputMap (c : Config) : (dfltStreams c).OutputMap = c.OutputMap := by
  unfold dfltStreams; split_ifs <;> rfl

@[simp] theorem dfltStreams_ExecPipe (c : Config) : (dfltStreams c).ExecPipe = c.ExecPipe := by
  unfold dfltStreams; split_ifs <;> rfl

@[simp] theorem dfltStreams_LDelim (c : Config) : (dfltStreams c).LDelim = c.LDelim := by
  unfold dfltStreams; split_ifs <;> rfl

@[simp] theorem dfltStreams_RDelim (c : Config) : (dfltStreams c).RDelim = c.RDelim := by
  unfold dfltStreams; split_ifs <;> rfl

@[simp] theorem dfltStreams_PluginTimeout (c : Config) : (dfltStreams c).PluginTimeout = c.PluginTimeout := by
  unfold dfltStreams; split_ifs <;> rfl

@[simp] theorem dfltTimeout_Input (c : Config) : (dfltTimeout c).Input = c.Input := by
  unfold dfltTimeout; split_ifs <;> rfl

@[simp] theorem dfltTimeout_InputFiles (c : Config) : (dfltTimeout c).InputFiles = c.InputFiles := by
  unfold dfltTimeout; split_ifs <;> rfl

@[simp] theorem dfltTimeout_InputDir (c : Config) : (dfltTimeout c).InputDir = c.InputDir := by
  unfold dfltTimeout; split_ifs <;> rfl

@[simp] theorem dfltTimeout_OutputFiles (c : Config) : (dfltTimeout c).OutputFiles = c.OutputFiles := by
  unfold dfltTimeout; split_ifs <;> rfl

@[simp] theorem dfltTimeout_OutputDir (c : Config) : (dfltTimeout c).OutputDir = c.OutputDir := by
  unfold dfltTimeout; split_ifs <;> rfl

@[simp] theorem dfltTimeout_OutputMap (c : Config) : (dfltTimeout c).OutputMap = c.OutputMap := by
  unfold dfltTimeout; split_ifs <;> rfl

@[simp] theorem dfltTimeout_ExecPipe (c : Config) : (dfltTimeout c).ExecPipe = c.ExecPipe := by
  unfold dfltTimeout; split_ifs <;> rfl

@[simp] theorem dfltTimeout_LDelim (c : Config) : (dfltTimeout c).LDelim = c.LDelim := by
  unfold dfltTimeout; split_ifs <;> rfl

@[simp] theorem dfltTimeout_RDelim (c : Config) : (dfltTimeout c).RDelim = c.RDelim := by
  unfold dfltTimeout; split_ifs <;> rfl

@[simp] theorem dfltTimeout_PostExecInput (c : Config) : (dfltTimeout c).PostExecInput = c.PostExecInput := by
  unfold dfltTimeout; split_ifs <;> rfl

@[simp] theorem dfltTimeout_OutWriter (c : Config) : (dfltTimeout c).OutWriter = c.OutWriter := by
  unfold dfltTimeout; split_ifs <;> rfl

theorem dfltOutDir_estab (c : Config) :
    (dfltOutDir c).InputDir = "" ∨ (dfltOutDir c).OutputDir ≠ "" ∨
      (dfltOutDir c).OutputMap ≠ "" := by
  unfold dfltOutDir; split_ifs with h <;> simp_all <;> tauto

theorem dfltInFiles_estab (c : Config) :
    (dfltInFiles c).Input ≠ "" ∨ (dfltInFiles c).InputDir ≠ "" ∨
      (dfltInFiles c).InputFiles ≠ [] := by
  unfold dfltInFiles; split_ifs with h <;> simp_all [List.length_eq_zero] <;> tauto

theorem dfltOutFiles_estab (c : Config) :
    (dfltOutFiles c).OutputDir ≠ "" ∨ (dfltOutFiles c).OutputMap ≠ "" ∨
      (dfltOutFiles c).OutputFiles ≠ [] ∨ (dfltOutFiles c).ExecPipe = true := by
  unfold dfltOutFiles; split_ifs with h <;> simp_all [List.length_eq_zero] <;> tauto

theorem dfltLDelim_estab (c : Config) : (dfltLDelim c).LDelim ≠ "" := by
  unfold dfltLDelim; split_ifs <;> simp_all

theorem dfltRDelim_estab (c : Config) : (dfltRDelim c).RDelim ≠ "" := by
  unfold dfltRDelim; split_ifs <;> simp_all

theorem dfltStreams_estab (c : Config) :
    ((dfltStreams c).ExecPipe = true →
      (dfltStreams c).PostExecInput = .buffer ∧ (dfltStreams c).OutWriter = .buffer ∧
        (dfltStreams c).OutputFiles = ["-"]) ∧
    ((dfltStreams c).ExecPipe = false →
      (dfltStreams c).PostExecInput = .stdinHandle ∧
        (dfltStreams c).OutWriter = .stdoutHandle) := by
  unfold dfltStreams; split_ifs with h <;> simp_all

theorem dfltStreams_pres_out (c : Config)
    (h : c.OutputDir ≠ "" ∨ c.OutputMap ≠ "" ∨ c.OutputFiles ≠ [] ∨ c.ExecPipe = true) :
    (dfltStreams c).OutputDir ≠ "" ∨ (dfltStreams c).OutputMap ≠ "" ∨
      (dfltStreams c).OutputFiles ≠ [] ∨ (dfltStreams c).ExecPipe = true := by
  unfold dfltStreams; split_ifs with hp <;> simp_all

theorem dfltTimeout_estab (c : Config) : (dfltTimeout c).PluginTimeout ≠ 0 := by
  unfold dfltTimeout; split_ifs <;> simp_all

theorem defaulted_applyDefaults (c : Config) : defaulted (c.ApplyDefaults) := by
  unfold Config.ApplyDefaults defaulted
  have h3 := dfltOutFiles_estab (dfltInFiles (dfltOutDir c))
  have h4 := dfltStreams_pres_out
    (dfltRDelim (dfltLDelim (dfltOutFiles (dfltInFiles (dfltOutDir c)))))
    (by simpa using h3)
  have h6 := dfltStreams_estab (dfltRDelim (dfltLDelim (dfltOutFiles (dfltInFiles (dfltOutDir c)))))
  refine ⟨by simpa using dfltOutDir_estab c,
    by simpa using dfltInFiles_estab (dfltOutDir c),
    by simpa using h4,
    by simpa using dfltLDelim_estab (dfltOutFiles (dfltInFiles (dfltOutDir c))),
    by simpa using dfltRDelim_estab (dfltLDelim (dfltOutFiles (dfltInFiles (dfltOutDir c)))),
    by simpa using h6.1,
    by simpa using h6.2,
    by simpa using dfltTimeout_estab (dfltStreams (dfltRDelim (dfltLDelim (dfltOutFiles (dfltInFiles (dfltOutDir c))))))⟩

theorem applyDefaults_of_defaulted (d : Config) (h : defaulted d) : d.ApplyDefaults = d := by
  obtain ⟨i1, i2, i3, i4, i5, i6, i7, i8⟩ := h
  have e1 : dfltOutDir d = d := by
    unfold dfltOutDir; rw [if_neg]; tauto
  have e2 : dfltInFiles d = d := by
    unfold dfltInFiles; rw [if_neg]
    rintro ⟨ha, hb, hc⟩
    rcases i2 with h | h | h <;> simp_all [List.length_eq_zero]
  have e3 : dfltOutFiles d = d := by
    unfold dfltOutFiles; rw [if_neg]
    rintro ⟨ha, hb, hc, he⟩
    rcases i3 with h | h | h | h <;> simp_all [List.length_eq_zero]
  have e4 : dfltLDelim d = d := by
    unfold dfltLDelim; rw [if_neg i4]
  have e5 : dfltRDelim d = d := by
    unfold dfltRDelim; rw [if_neg i5]
  have e6 : dfltStreams d = d := by
    unfold dfltStreams; split_ifs with h
    · obtain ⟨p1, p2, p3⟩ := i6 h
      cases d; simp_all
    · obtain ⟨p1, p2⟩ := i7 (by simpa using h)
      cases d; simp_all
  have e7 : dfltTimeout d = d := by
    unfold dfltTimeout; rw [if_neg i8]
  show dfltTimeout (dfltStreams (dfltRDelim (dfltLDelim (dfltOutFiles (dfltInFiles (dfltOutDir d)))))) = d
  rw [e1, e2, e3, e4, e5, e6, e7]

/-- C5: `ApplyDefaults` is idempotent - applying it twice yields a
`Config` observably equal to applying it once. -/
theorem applyDefaults_idempotent (c : Config) :
    (c.ApplyDefaults).ApplyDefaults = c.ApplyDefaults :=
  applyDefaults_of_defaulted (c.ApplyDefaults) (defaulted_applyDefaults c)

/-! ## C1: merging an empty override is a no-op -/

/-- C1: for every Config Document `c`, `MergeFrom c emptyConfig` leaves
every field of `c` unchanged: an all-zero override is a no-op. -/
theorem mergeFrom_emptyConfig (c : Config) : c.MergeFrom emptyConfig = some c := rfl

/-! ## C3: execPipe and outputFiles -/

/-- C3 counterexample: `OutputFiles = ["-", "x"]` is neither `[]` nor
`["-"]`, yet `Validate` accepts it with `ExecPipe` set — check 8 only
inspects the first element. -/
theorem validate_execPipe_extra_output_accepted :
    execPipeExtraOutput.ExecPipe = true ∧
    execPipeExtraOutput.OutputFiles ≠ [] ∧
    execPipeExtraOutput.OutputFiles ≠ ["-"] ∧
    execPipeExtraOutput.Validate = none := by decide

/-- C3 amended: for every Config with `ExecPipe` set that passes
validation checks 1 through 7, `Validate` returns an error exactly when
`OutputFiles` is non-empty with a first element other than `"-"` (later
elements are not inspected). -/
theorem validate_execPipe_output_files (c : Config) (hp : c.ExecPipe = true)
    (h7 : c.validate7 = none) :
    c.Validate = none ↔ (c.OutputFiles = [] ∨ c.OutputFiles.head? = some "-") := by
  rw [Config.Validate, h7, orE_none_left]
  cases hof : c.OutputFiles with
  | nil => simp [Config.check8, hof]
  | cons a as =>
    by_cases ha : a = "-" <;> simp [Config.check8, hof, hp, ha]

/-- C3 witness: the amended theorem applied at the counterexample
config. -/
theorem validate_execPipe_output_files_witness :
    execPipeExtraOutput.Validate = none ↔
      (execPipeExtraOutput.OutputFiles = [] ∨
        execPipeExtraOutput.OutputFiles.head? = some "-") :=
  validate_execPipe_output_files execPipeExtraOutput (by decide) (by decide)

/-! ## C6: input / output cardinality -/

/-- C6: every config with 2 `InputFiles` and 1 `OutputFiles` is
rejected when `ExecPipe` is false, and such a config is accepted when
`ExecPipe` is true. -/
theorem validate_count_mismatch :
    (∀ c : Config, c.InputFiles.length = 2 → c.OutputFiles.length = 1 →
      c.ExecPipe = false → (c.Validate).isSome = true) ∧
    (execPipeTwoInputs.InputFiles.length = 2 ∧
      execPipeTwoInputs.OutputFiles.length = 1 ∧
      execPipeTwoInputs.ExecPipe = true ∧
      execPipeTwoInputs.Validate = none) := by
  constructor
  · intro c h1 h2 h3
    have h6 : (c.check6).isSome = true := by
      simp [Config.check6, h1, h2, h3]
    simp [Config.Validate, Config.validate7, orE_isSome, h6]
  · decide

/-- C6 witness: the universal half applied at a concrete rejected
config. -/
theorem validate_count_mismatch_witness :
    ((⟨"", ["a", "b"], "", [], ["x"], "", "", false, false, [], "", "", "",
      none, none, none, 0, [], none, .unset, .unset⟩ : Config).Validate).isSome = true :=
  validate_count_mismatch.1 _ (by decide) (by decide) (by decide)

/-! ## C8: default file mode -/

/-- C8: an empty `OutMode` with a non-empty inline `Input` yields mode
`0644` with no override flag and no error. -/
theorem getMode_default (c : Config) (hm : c.OutMode = "") (hi : c.Input ≠ "") :
    c.GetMode = some (0o644, false) := by
  simp [Config.GetMode, hm, parseUintOct, hi]

/-- C8 witness: `GetMode` of the `\x7bin: "hello"\x7d` scenario config. -/
theorem getMode_default_witness :
    ({ Input := "hello" } : Config).GetMode = some (0o644, false) :=
  getMode_default { Input := "hello" } (by decide) (by decide)

/-! ## C4: the output-directory frame of MergeFrom -/

@[simp] theorem mergeInput_Plugins (c o : Config) : (mergeInput c o).Plugins = c.Plugins := by
  unfold mergeInput; split_ifs <;> rfl

@[simp] theorem mergeInput_DataSources (c o : Config) : (mergeInput c o).DataSources = c.DataSources := by
  unfold mergeInput; split_ifs <;> rfl

@[simp] theorem mergeInput_Context (c o : Config) : (mergeInput c o).Context = c.Context := by
  unfold mergeInput; split_ifs <;> rfl

@[simp] theorem mergeOutMap_Plugins (c o : Config) : (mergeOutMap c o).Plugins = c.Plugins := by
  unfold mergeOutMap; split_ifs <;> rfl

@[simp] theorem mergeOutMap_DataSources (c o : Config) : (mergeOutMap c o).DataSources = c.DataSources := by
  unfold mergeOutMap; split_ifs <;> rfl

@[simp] theorem mergeOutMap_Context (c o : Config) : (mergeOutMap c o).Context = c.Context := by
  unfold mergeOutMap; split_ifs <;> rfl

@[simp] theorem mergeOutDir_Plugins (c o : Config) : (mergeOutDir c o).Plugins = c.Plugins := by
  unfold mergeOutDir; split_ifs <;> rfl

@[simp] theorem mergeOutDir_DataSources (c o : Config) : (mergeOutDir c o).DataSources = c.DataSources := by
  unfold mergeOutDir; split_ifs <;> rfl

@[simp] theorem mergeOutDir_Context (c o : Config) : (mergeOutDir c o).Context = c.Context := by
  unfold mergeOutDir; split_ifs <;> rfl

@[simp] theorem mergeOutFiles_Plugins (c o : Config) : (mergeOutFiles c o).Plugins = c.Plugins := by
  unfold mergeOutFiles; split_ifs <;> rfl

@[simp] theorem mergeOutFiles_DataSources (c o : Config) : (mergeOutFiles c o).DataSources = c.DataSources := by
  unfold mergeOutFiles; split_ifs <;> rfl

@[simp] theorem mergeOutFiles_Context (c o : Config) : (mergeOutFiles c o).Context = c.Context := by
  unfold mergeOutFiles; split_ifs <;> rfl

@[simp] theorem mergeExecPipe_OutputDir (c o : Config) : (mergeExecPipe c o).OutputDir = c.OutputDir := by
  unfold mergeExecPipe; split_ifs <;> rfl

@[simp] theorem mergeExecPipe_Plugins (c o : Config) : (mergeExecPipe c o).Plugins = c.Plugins := by
  unfold mergeExecPipe; split_ifs <;> rfl

@[simp] theorem mergeExecPipe_DataSources (c o : Config) : (mergeExecPipe c o).DataSources = c.DataSources := by
  unfold mergeExecPipe; split_ifs <;> rfl

@[simp] theorem mergeExecPipe_Context (c o : Config) : (mergeExecPipe c o).Context = c.Context := by
  unfold mergeExecPipe; split_ifs <;> rfl

@[simp] theorem mergeExcludes_OutputDir (c o : Config) : (mergeExcludes c o).OutputDir = c.OutputDir := by
  unfold mergeExcludes; split_ifs <;> rfl

@[simp] theorem mergeExcludes_Plugins (c o : Config) : (mergeExcludes c o).Plugins = c.Plugins := by
  unfold mergeExcludes; split_ifs <;> rfl

@[simp] theorem mergeExcludes_DataSources (c o : Config) : (mergeExcludes c o).DataSources = c.DataSources := by
  unfold mergeExcludes; split_ifs <;> rfl

@[simp] theorem mergeExcludes_Context (c o : Config) : (mergeExcludes c o).Context = c.Context := by
  unfold mergeExcludes; split_ifs <;> rfl

@[simp] theorem mergeOutMode_OutputDir (c o : Config) : (mergeOutMode c o).OutputDir = c.OutputDir := by
  unfold mergeOutMode; split_ifs <;> rfl

@[simp] theorem mergeOutMode_Plugins (c o : Config) : (mergeOutMode c o).Plugins = c.Plugins := by
  unfold mergeOutMode; split_ifs <;> rfl

@[simp] theorem mergeOutMode_DataSources (c o : Config) : (mergeOutMode c o).DataSources = c.DataSources := by
  unfold mergeOutMode; split_ifs <;> rfl

@[simp] theorem mergeOutMode_Context (c o : Config) : (mergeOutMode c o).Context = c.Context := by
  unfold mergeOutMode; split_ifs <;> rfl

@[simp] theorem mergeLDelim_OutputDir (c o : Config) : (mergeLDelim c o).OutputDir = c.OutputDir := by
  unfold mergeLDelim; split_ifs <;> rfl

@[simp] theorem mergeLDelim_Plugins (c o : Config) : (mergeLDelim c o).Plugins = c.Plugins := by
  unfold mergeLDelim; split_ifs <;> rfl

@[simp] theorem mergeLDelim_DataSources (c o : Config) : (mergeLDelim c o).DataSources = c.DataSources := by
  unfold mergeLDelim; split_ifs <;> rfl

@[simp] theorem mergeLDelim_Context (c o : Config) : (mergeLDelim c o).Context = c.Context := by
  unfold mergeLDelim; split_ifs <;> rfl

@[simp] theorem mergeRDelim_OutputDir (c o : Config) : (mergeRDelim c o).OutputDir = c.OutputDir := by
  unfold mergeRDelim; split_ifs <;> rfl

@[simp] theorem mergeRDelim_Plugins (c o : Config) : (mergeRDelim c o).Plugins = c.Plugins := by
  unfold mergeRDelim; split_ifs <;> rfl

@[simp] theorem mergeRDelim_DataSources (c o : Config) : (mergeRDelim c o).DataSources = c.DataSources := by
  unfold mergeRDelim; split_ifs <;> rfl

@[simp] theorem mergeRDelim_Context (c o : Config) : (mergeRDelim c o).Context = c.Context := by
  unfold mergeRDelim; split_ifs <;> rfl

@[simp] theorem mergeTemplates_OutputDir (c o : Config) : (mergeTemplates c o).OutputDir = c.OutputDir := by
  unfold mergeTemplates; split_ifs <;> rfl

@[simp] theorem mergeTemplates_Plugins (c o : Config) : (mergeTemplates c o).Plugins = c.Plugins := by
  unfold mergeTemplates; split_ifs <;> rfl

@[simp] theorem mergeTemplates_DataSources (c o : Config) : (mergeTemplates c o).DataSources = c.DataSources := by
  unfold mergeTemplates; split_ifs <;> rfl

@[simp] theorem mergeTemplates_Context (c o : Config) : (mergeTemplates c o).Context = c.Context := by
  unfold mergeTemplates; split_ifs <;> rfl

theorem mergeInput_OutputDir (c o : Config) (h5 : o.Input = "")
    (h6 : o.InputFiles = [] ∨ o.InputFiles = ["-"]) :
    (mergeInput c o).OutputDir = c.OutputDir := by
  unfold mergeInput
  rcases h6 with h6 | h6 <;> simp_all [isZero] <;> split_ifs <;> rfl

theorem mergeOutMap_id (c o : Config) (h : o.OutputMap = "") : mergeOutMap c o = c := by
  unfold mergeOutMap; simp [isZero, h]

theorem mergeOutDir_id (c o : Config) (h : o.OutputDir = "") : mergeOutDir c o = c := by
  unfold mergeOutDir; simp [isZero, h]

theorem mergeOutFiles_id (c o : Config) (h : o.OutputFiles = []) : mergeOutFiles c o = c := by
  unfold mergeOutFiles; simp [isZero, h]

theorem mergeMaps_OutputDir (c o c' : Config) (h : mergeMaps c o = some c') :
    c'.OutputDir = c.OutputDir := by
  unfold mergeMaps at h
  repeat' split at h
  all_goals simp_all
  all_goals (obtain rfl := h.symm; rfl)

theorem mergeFields_OutputDir (c o : Config)
    (h1 : o.OutputDir = "") (h2 : o.OutputFiles = []) (h3 : o.OutputMap = "")
    (h5 : o.Input = "") (h6 : o.InputFiles = [] ∨ o.InputFiles = ["-"]) :
    (mergeFields c o).OutputDir = c.OutputDir := by
  unfold mergeFields
  simp only [mergeTemplates_OutputDir, mergeRDelim_OutputDir, mergeLDelim_OutputDir,
    mergeOutMode_OutputDir, mergeExcludes_OutputDir, mergeExecPipe_OutputDir]
  rw [mergeOutFiles_id _ _ h2, mergeOutDir_id _ _ h1, mergeOutMap_id _ _ h3,
    mergeInput_OutputDir _ _ h5 h6]

/-- C4 counterexample: the override has all four output / exec fields
zero, yet `MergeFrom` changes the base's `OutputDir` from `"d"` to
`""`, because the non-zero override `Input` clears `OutputDir` too. -/
theorem mergeFrom_input_clears_outputDir :
    inputOnlyOverride.OutputDir = "" ∧ inputOnlyOverride.OutputFiles = [] ∧
    inputOnlyOverride.OutputMap = "" ∧ inputOnlyOverride.ExecPipe = false ∧
    outputDirBase.OutputDir = "d" ∧
    (outputDirBase.MergeFrom inputOnlyOverride).map Config.OutputDir = some "" := by
  decide

/-- C4 amended: when the override additionally has a zero `Input` and
an `InputFiles` that is empty or the `["-"]` stdin sentinel, a
successful `MergeFrom` leaves the base's `OutputDir` unchanged. -/
theorem mergeFrom_outputDir_frame (c o c' : Config)
    (h1 : o.OutputDir = "") (h2 : o.OutputFiles = []) (h3 : o.OutputMap = "")
    (_h4 : o.ExecPipe = false) (h5 : o.Input = "")
    (h6 : o.InputFiles = [] ∨ o.InputFiles = ["-"])
    (hm : c.MergeFrom o = some c') :
    c'.OutputDir = c.OutputDir := by
  unfold Config.MergeFrom at hm
  rw [mergeMaps_OutputDir _ _ _ hm, mergeFields_OutputDir _ _ h1 h2 h3 h5 h6]

/-- C4 witness: the amended theorem applied at a concrete base /
override pair with a non-zero override `InputDir`. -/
theorem mergeFrom_outputDir_frame_witness :
    ∃ c' : Config, outputDirBase.MergeFrom { InputDir := "y" } = some c' ∧
      c'.OutputDir = "d" := by
  obtain ⟨c', hc'⟩ : ∃ c', outputDirBase.MergeFrom { InputDir := "y" } = some c' := ⟨_, rfl⟩
  exact ⟨c', hc',
    mergeFrom_outputDir_frame outputDirBase _ c' rfl rfl rfl rfl rfl (Or.inl rfl) hc'⟩

/-! ## C9: plugin map merging -/

theorem entLookup_insert_self {α : Type} (es : Entries α) (k : String) (v : α) :
    entLookup (entInsert es k v) k = some v := by
  induction es with
  | nil => simp [entInsert, entLookup]
  | cons kv rest ih =>
    obtain ⟨k0, v0⟩ := kv
    by_cases h : k0 = k
    · simp [entInsert, h, entLookup]
    · simp [entInsert, h, entLookup, ih]

theorem entLookup_insert_ne {α : Type} (es : Entries α) (k0 k : String) (v : α)
    (h : k0 ≠ k) : entLookup (entInsert es k0 v) k = entLookup es k := by
  induction es with
  | nil => simp [entInsert, entLookup, h]
  | cons kv rest ih =>
    obtain ⟨k1, v1⟩ := kv
    by_cases h1 : k1 = k0
    · simp [entInsert, h1, entLookup, h]
    · simp [entInsert, h1, entLookup, ih]

theorem entLookup_foldl_insert_of_not_mem {α : Type} (L : Entries α) (es : Entries α)
    (k : String) (h : k ∉ entKeys L) :
    entLookup (L.foldl (fun acc kv => entInsert acc kv.1 kv.2) es) k = entLookup es k := by
  induction L generalizing es with
  | nil => rfl
  | cons kv rest ih =>
    simp [entKeys] at h
    rw [List.foldl_cons, ih _ (by simp [entKeys]; tauto)]
    exact entLookup_insert_ne es kv.1 k kv.2 (by tauto)

theorem entLookup_foldl_insert_of_lookup {α : Type} (L : Entries α) (es : Entries α)
    (k : String) (v : α) (hnd : (entKeys L).Nodup) (h : entLookup L k = some v) :
    entLookup (L.foldl (fun acc kv => entInsert acc kv.1 kv.2) es) k = some v := by
  induction L generalizing es with
  | nil => simp [entLookup] at h
  | cons kv rest ih =>
    obtain ⟨k0, v0⟩ := kv
    rw [entKeys, List.map_cons, List.nodup_cons] at hnd
    by_cases hk : k0 = k
    · subst hk
      simp only [entLookup, if_pos rfl] at h
      obtain rfl : v0 = v := Option.some.inj h
      rw [List.foldl_cons, entLookup_foldl_insert_of_not_mem rest _ k0 hnd.1]
      exact entLookup_insert_self es k0 v0
    · simp only [entLookup, if_neg hk] at h
      rw [List.foldl_cons]
      exact ih (entInsert es k0 v0) hnd.2 h

theorem dsourcesMergeFrom_success (d o : GoMap DSConfig)
    (h : goEntries o = [] ∨ d ≠ none) : ∃ r, dsourcesMergeFrom d o = some r := by
  unfold dsourcesMergeFrom
  rcases h with h | h
  · simp [h]
  · split_ifs
    · exact ⟨d, rfl⟩
    · cases d with
      | none => exact absurd rfl h
      | some ds => exact ⟨_, rfl⟩

theorem mergeFields_Plugins (c o : Config) : (mergeFields c o).Plugins = c.Plugins := by
  unfold mergeFields
  simp only [mergeTemplates_Plugins, mergeRDelim_Plugins, mergeLDelim_Plugins,
    mergeOutMode_Plugins, mergeExcludes_Plugins, mergeExecPipe_Plugins, mergeOutFiles_Plugins,
    mergeOutDir_Plugins, mergeOutMap_Plugins, mergeInput_Plugins]

theorem mergeFields_DataSources (c o : Config) :
    (mergeFields c o).DataSources = c.DataSources := by
  unfold mergeFields
  simp only [mergeTemplates_DataSources, mergeRDelim_DataSources, mergeLDelim_DataSources,
    mergeOutMode_DataSources, mergeExcludes_DataSources, mergeExecPipe_DataSources,
    mergeOutFiles_DataSources, mergeOutDir_DataSources, mergeOutMap_DataSources,
    mergeInput_DataSources]

theorem mergeFields_Context (c o : Config) : (mergeFields c o).Context = c.Context := by
  unfold mergeFields
  simp only [mergeTemplates_Context, mergeRDelim_Context, mergeLDelim_Context,
    mergeOutMode_Context, mergeExcludes_Context, mergeExecPipe_Context, mergeOutFiles_Context,
    mergeOutDir_Context, mergeOutMap_Context, mergeInput_Context]

theorem mergeMaps_plugins (c o : Config) (ps : Entries String)
    (hp : c.Plugins = some ps)
    (hds : goEntries o.DataSources = [] ∨ c.DataSources ≠ none)
    (hctx : goEntries o.Context = [] ∨ c.Context ≠ none) :
    ∃ c', mergeMaps c o = some c' ∧
      c'.Plugins = some ((goEntries o.Plugins).foldl
        (fun acc kv => entInsert acc kv.1 kv.2) ps) := by
  obtain ⟨ds, hds'⟩ := dsourcesMergeFrom_success _ _ hds
  obtain ⟨ctx, hctx'⟩ := dsourcesMergeFrom_success _ _ hctx
  unfold mergeMaps
  simp only [hds', hctx']
  by_cases hl : (goEntries o.Plugins).length > 0
  · simp only [if_pos hl, hp]
    exact ⟨_, rfl, rfl⟩
  · have he : goEntries o.Plugins = [] := by
      cases hgl : goEntries o.Plugins with
      | nil => rfl
      | cons a b => rw [hgl] at hl; simp at hl
    simp only [if_neg hl]
    refine ⟨_, rfl, ?_⟩
    simp [he, hp]

theorem mergeMaps_plugins_nil (c o : Config) (hp : c.Plugins = none)
    (hne : goEntries o.Plugins ≠ []) : mergeMaps c o = none := by
  unfold mergeMaps
  cases hds : dsourcesMergeFrom c.DataSources o.DataSources with
  | none => rfl
  | some ds =>
    cases hctx : dsourcesMergeFrom c.Context o.Context with
    | none => rfl
    | some ctx =>
      simp only [hds, hctx, if_pos (List.length_pos.mpr hne), hp]

/-- C9: with a non-nil base plugin map (and the datasource / context
merges not themselves panicking), `MergeFrom` succeeds and every plugin
entry of the override (a Go map, so with distinct keys) is inserted or
overwritten into the base's plugin map; with a nil base plugin map and
a non-empty override, the merge panics. -/
theorem mergeFrom_plugins :
    (∀ c o : Config, ∀ ps : Entries String, c.Plugins = some ps →
      (goEntries o.DataSources = [] ∨ c.DataSources ≠ none) →
      (goEntries o.Context = [] ∨ c.Context ≠ none) →
      (entKeys (goEntries o.Plugins)).Nodup →
      ∃ c', c.MergeFrom o = some c' ∧
        ∀ k v, entLookup (goEntries o.Plugins) k = some v → goLookup c'.Plugins k = some v) ∧
    (∀ c o : Config, c.Plugins = none → goEntries o.Plugins ≠ [] → c.MergeFrom o = none) := by
  constructor
  · intro c o ps hp hds hctx hnd
    obtain ⟨c', hm, hpl⟩ := mergeMaps_plugins (mergeFields c o) o ps
      (by rw [mergeFields_Plugins]; exact hp)
      (by rw [mergeFields_DataSources]; exact hds)
      (by rw [mergeFields_Context]; exact hctx)
    refine ⟨c', hm, ?_⟩
    intro k v hkv
    rw [goLookup, hpl]
    exact entLookup_foldl_insert_of_lookup _ _ _ _ hnd hkv
  · intro c o hp hne
    unfold Config.MergeFrom
    exact mergeMaps_plugins_nil _ _ (by rw [mergeFields_Plugins]; exact hp) hne

/-- C9 witness: both halves applied at concrete configs. -/
theorem mergeFrom_plugins_witness :
    (∃ c' : Config,
      ({ Plugins := some [("a", "old")] } : Config).MergeFrom
        { Plugins := some [("a", "x"), ("b", "y")] } = some c' ∧
      ∀ k v, entLookup (goEntries ({ Plugins := some [("a", "x"), ("b", "y")] } : Config).Plugins) k = some v →
        goLookup c'.Plugins k = some v) ∧
    (emptyConfig.MergeFrom { Plugins := some [("a", "x")] } = none) := by
  constructor
  · exact mergeFrom_plugins.1 _ _ [("a", "old")] rfl (Or.inl rfl) (Or.inl rfl) (by decide)
  · exact mergeFrom_plugins.2 _ _ rfl (by decide)

/-! ## C2 and C10: header reconciliation -/

theorem entLookup_erase_self {α : Type} (es : Entries α) (k : String) :
    entLookup (entErase es k) k = none := by
  induction es with
  | nil => rfl
  | cons kv rest ih =>
    obtain ⟨k0, v0⟩ := kv
    by_cases h : k0 = k <;> simp [entErase, h, entLookup, ih]

theorem entLookup_erase_ne {α : Type} (es : Entries α) (k0 k : String) (h : k0 ≠ k) :
    entLookup (entErase es k0) k = entLookup es k := by
  induction es with
  | nil => rfl
  | cons kv rest ih =>
    obtain ⟨k1, v1⟩ := kv
    have h' : k ≠ k0 := Ne.symm h
    by_cases h1 : k1 = k0
    · have hk : k1 ≠ k := by rw [h1]; exact h
      simp [entErase, entLookup, h1, hk, ih, h, h']
    · by_cases h2 : k1 = k <;> simp [entErase, entLookup, h1, h2, ih, h, h']

theorem entLookup_erase_none {α : Type} (es : Entries α) (k0 k : String)
    (h : entLookup es k = none) : entLookup (entErase es k0) k = none := by
  by_cases hk : k0 = k
  · subst hk; exact entLookup_erase_self es k0
  · rw [entLookup_erase_ne es k0 k hk]; exact h

theorem reconcileStep_other (acc : Config × Entries Header) (kv : String × Header)
    (k : String) (hne : kv.1 ≠ k) :
    goLookup (reconcileStep acc kv).1.Context k = goLookup acc.1.Context k ∧
    goLookup (reconcileStep acc kv).1.DataSources k = goLookup acc.1.DataSources k ∧
    entLookup (reconcileStep acc kv).2 k = entLookup acc.2 k ∧
    (reconcileStep acc kv).1.ExtraHeaders = acc.1.ExtraHeaders := by
  obtain ⟨c, p⟩ := acc
  obtain ⟨k0, v⟩ := kv
  simp only [reconcileStep]
  cases hc : goLookup c.Context k0 <;> cases hd : goLookup c.DataSources k0 <;>
    simp_all [goLookup, goEntries, entLookup_insert_ne _ _ _ _ hne,
      entLookup_erase_ne _ _ _ hne]

theorem reconcileStep_self (acc : Config × Entries Header) (k : String) (v : Header) :
    goLookup (reconcileStep acc (k, v)).1.Context k =
      (goLookup acc.1.Context k).map (fun d => { d with header := some v }) ∧
    goLookup (reconcileStep acc (k, v)).1.DataSources k =
      (goLookup acc.1.DataSources k).map (fun d => { d with header := some v }) ∧
    ((goLookup acc.1.Context k).isSome = true ∨ (goLookup acc.1.DataSources k).isSome = true →
      entLookup (reconcileStep acc (k, v)).2 k = none) ∧
    (reconcileStep acc (k, v)).1.ExtraHeaders = acc.1.ExtraHeaders := by
  obtain ⟨c, p⟩ := acc
  simp only [reconcileStep]
  cases hc : goLookup c.Context k <;> cases hd : goLookup c.DataSources k <;>
    simp_all [goLookup, goEntries, entLookup_insert_self, entLookup_erase_self]

theorem reconcileFold_other (L : Entries Header) (acc : Config × Entries Header)
    (k : String) (h : ∀ e ∈ L, e.1 ≠ k) :
    goLookup (L.foldl reconcileStep acc).1.Context k = goLookup acc.1.Context k ∧
    goLookup (L.foldl reconcileStep acc).1.DataSources k = goLookup acc.1.DataSources k ∧
    entLookup (L.foldl reconcileStep acc).2 k = entLookup acc.2 k ∧
    (L.foldl reconcileStep acc).1.ExtraHeaders = acc.1.ExtraHeaders := by
  induction L generalizing acc with
  | nil => exact ⟨rfl, rfl, rfl, rfl⟩
  | cons kv rest ih =>
    rw [List.foldl_cons]
    obtain ⟨s1, s2, s3, s4⟩ := reconcileStep_other acc kv k (h kv (by simp))
    obtain ⟨f1, f2, f3, f4⟩ := ih (reconcileStep acc kv) (fun e he => h e (by simp [he]))
    exact ⟨f1.trans s1, f2.trans s2, f3.trans s3, f4.trans s4⟩

theorem entLookup_split {α : Type} (es : Entries α) (k : String) (v : α)
    (h : entLookup es k = some v) :
    ∃ A B, es = A ++ (k, v) :: B ∧ ∀ e ∈ A, e.1 ≠ k := by
  induction es with
  | nil => simp [entLookup] at h
  | cons kv rest ih =>
    obtain ⟨k0, v0⟩ := kv
    by_cases hk : k0 = k
    · subst hk
      simp only [entLookup, if_pos rfl] at h
      obtain rfl : v0 = v := Option.some.inj h
      exact ⟨[], rest, rfl, by simp⟩
    · simp only [entLookup, if_neg hk] at h
      obtain ⟨A, B, hAB, hA⟩ := ih h
      refine ⟨(k0, v0) :: A, B, by simp [hAB], ?_⟩
      intro e he
      rcases List.mem_cons.mp he with rfl | he
      · exact hk
      · exact hA e he

theorem entKeys_insert_mem {α : Type} (es : Entries α) (k0 k : String) (v : α)
    (h : k ∈ entKeys (entInsert es k0 v)) : k ∈ entKeys es ∨ k = k0 := by
  induction es with
  | nil =>
    rw [entInsert, entKeys] at h
    simp at h
    exact Or.inr h
  | cons kv rest ih =>
    obtain ⟨k1, v1⟩ := kv
    by_cases h1 : k1 = k0
    · rw [entInsert, if_pos h1, entKeys, List.map_cons, List.mem_cons] at h
      rcases h with h | h
      · exact Or.inr h
      · exact Or.inl (by rw [entKeys, List.map_cons, List.mem_cons]; exact Or.inr h)
    · rw [entInsert, if_neg h1, entKeys, List.map_cons, List.mem_cons] at h
      rcases h with h | h
      · exact Or.inl (by rw [entKeys, List.map_cons, List.mem_cons]; exact Or.inl h)
      · rcases ih h with h | h
        · exact Or.inl (by rw [entKeys, List.map_cons, List.mem_cons]; exact Or.inr h)
        · exact Or.inr h

theorem entKeys_insert_nodup {α : Type} (es : Entries α) (k : String) (v : α)
    (h : (entKeys es).Nodup) : (entKeys (entInsert es k v)).Nodup := by
  induction es with
  | nil => simp [entInsert, entKeys]
  | cons kv rest ih =>
    obtain ⟨k0, v0⟩ := kv
    rw [entKeys, List.map_cons, List.nodup_cons] at h
    by_cases h0 : k0 = k
    · subst h0
      rw [entInsert, if_pos rfl, entKeys, List.map_cons, List.nodup_cons]
      exact ⟨h.1, h.2⟩
    · rw [entInsert, if_neg h0, entKeys, List.map_cons, List.nodup_cons]
      refine ⟨?_, ih h.2⟩
      intro hmem
      rcases entKeys_insert_mem rest k k0 v hmem with hm | hm
      · exact h.1 hm
      · exact h0 hm

theorem parseHeaderArgs_nodup_aux (args : List String) (acc : Entries Header)
    (hacc : (entKeys acc).Nodup) (hdrs : Entries Header)
    (h : args.foldlM
      (fun hs v =>
        match splitHeaderArg v with
        | none => none
        | some (ds, name, value) =>
          let h := (entLookup hs ds).getD []
          some (entInsert hs ds
            (entInsert h name (((entLookup h name).getD []) ++ [trimSpace value]))))
      acc = some hdrs) :
    (entKeys hdrs).Nodup := by
  induction args generalizing acc with
  | nil =>
    simp only [List.foldlM_nil] at h
    obtain rfl : acc = hdrs := Option.some.inj h
    exact hacc
  | cons a rest ih =>
    rw [List.foldlM_cons] at h
    cases hs : splitHeaderArg a with
    | none => rw [hs] at h; exact absurd h (by simp)
    | some dnv =>
      obtain ⟨ds, name, value⟩ := dnv
      rw [hs] at h
      exact ih _ (entKeys_insert_nodup _ _ _ hacc) h

theorem parseHeaderArgs_nodup (args : List String) (hdrs : Entries Header)
    (h : parseHeaderArgs args = some hdrs) : (entKeys hdrs).Nodup :=
  parseHeaderArgs_nodup_aux args [] (by simp [entKeys]) hdrs h

theorem reconcile_spec (hdrs : Entries Header) (c : Config) (k : String) (v : Header)
    (hnd : (entKeys hdrs).Nodup) (hv : entLookup hdrs k = some v) :
    goLookup (hdrs.foldl reconcileStep (c, hdrs)).1.Context k =
      (goLookup c.Context k).map (fun d => { d with header := some v }) ∧
    goLookup (hdrs.foldl reconcileStep (c, hdrs)).1.DataSources k =
      (goLookup c.DataSources k).map (fun d => { d with header := some v }) ∧
    ((goLookup c.Context k).isSome = true ∨ (goLookup c.DataSources k).isSome = true →
      entLookup (hdrs.foldl reconcileStep (c, hdrs)).2 k = none) ∧
    (hdrs.foldl reconcileStep (c, hdrs)).1.ExtraHeaders = c.ExtraHeaders := by
  obtain ⟨A, B, hAB, hA⟩ := entLookup_split hdrs k v hv
  have hB : ∀ e ∈ B, e.1 ≠ k := by
    intro e he heq
    rw [hAB, entKeys, List.map_append, List.map_cons] at hnd
    have hnd2 := List.Nodup.of_append_right hnd
    rw [List.nodup_cons] at hnd2
    have hmem : e.1 ∈ List.map Prod.fst B := List.mem_map_of_mem Prod.fst he
    rw [heq] at hmem
    exact hnd2.1 hmem
  have key : ∀ p : Config × Entries Header, hdrs.foldl reconcileStep p =
      B.foldl reconcileStep (reconcileStep (A.foldl reconcileStep p) (k, v)) := by
    intro p
    rw [hAB, List.foldl_append, List.foldl_cons]
  rw [key]
  obtain ⟨a1, a2, a3, a4⟩ := reconcileFold_other A (c, hdrs) k hA
  obtain ⟨s1, s2, s3, s4⟩ := reconcileStep_self (A.foldl reconcileStep (c, hdrs)) k v
  obtain ⟨b1, b2, b3, b4⟩ := reconcileFold_other B
    (reconcileStep (A.foldl reconcileStep (c, hdrs)) (k, v)) k hB
  refine ⟨?_, ?_, ?_, ?_⟩
  · rw [b1, s1, a1]
  · rw [b2, s2, a2]
  · intro hm
    rw [b3]
    apply s3
    rw [a1, a2]
    rcases hm with hm | hm
    · left; cases hc : goLookup c.Context k <;> simp_all
    · right; cases hc : goLookup c.DataSources k <;> simp_all
  · rw [b4, s4, a4]

theorem parseDataSourceFlags_core (wd : String) (c : Config) (hdrArgs : List String)
    (hdrs : Entries Header) (k : String) (v : Header)
    (hparse : parseHeaderArgs hdrArgs = some hdrs)
    (hv : entLookup hdrs k = some v)
    (hmatch : (goLookup c.Context k).isSome = true ∨ (goLookup c.DataSources k).isSome = true)
    (hx : goLookup c.ExtraHeaders k = (none : Option Header)) :
    ∃ c', c.ParseDataSourceFlags wd [] [] hdrArgs = some c' ∧
      goLookup c'.Context k =
        (goLookup c.Context k).map (fun d => { d with header := some v }) ∧
      goLookup c'.DataSources k =
        (goLookup c.DataSources k).map (fun d => { d with header := some v }) ∧
      goLookup c'.ExtraHeaders k = none := by
  have hnd := parseHeaderArgs_nodup hdrArgs hdrs hparse
  obtain ⟨r1, r2, r3, r4⟩ := reconcile_spec hdrs c k v hnd hv
  unfold Config.ParseDataSourceFlags
  simp only [List.foldlM_nil, Option.pure_def, hparse]
  by_cases hl : 0 < (hdrs.foldl reconcileStep (c, hdrs)).2.length
  · rw [if_pos hl]
    refine ⟨_, rfl, r1, r2, ?_⟩
    exact r3 hmatch
  · rw [if_neg hl]
    refine ⟨_, rfl, r1, r2, ?_⟩
    show goLookup (hdrs.foldl reconcileStep (c, hdrs)).1.ExtraHeaders k = none
    rw [r4]
    exact hx

/-- C2 amended: an alias matching an existing datasource descriptor
(and no context descriptor) has its parsed header set *replace* the
descriptor's header set; the alias is removed from the pending map and
produces no extra-headers entry. -/
theorem parseDataSourceFlags_ds_header (wd : String) (c : Config) (hdrArgs : List String)
    (hdrs : Entries Header) (k : String) (v : Header) (d : DSConfig)
    (hparse : parseHeaderArgs hdrArgs = some hdrs)
    (hv : entLookup hdrs k = some v)
    (_hctx : goLookup c.Context k = none)
    (hd : goLookup c.DataSources k = some d)
    (hx : goLookup c.ExtraHeaders k = (none : Option Header)) :
    ∃ c', c.ParseDataSourceFlags wd [] [] hdrArgs = some c' ∧
      goLookup c'.DataSources k = some { d with header := some v } ∧
      goLookup c'.ExtraHeaders k = none := by
  obtain ⟨c', h1, _, h3, h4⟩ := parseDataSourceFlags_core wd c hdrArgs hdrs k v hparse hv
    (Or.inr (by rw [hd]; rfl)) hx
  exact ⟨c', h1, by rw [h3, hd]; rfl, h4⟩

/-- C2 witness: the amended theorem applied at the spec's scenario. -/
theorem parseDataSourceFlags_ds_header_witness :
    ∃ c', dsWithOldHeader.ParseDataSourceFlags "/cwd" [] [] ["foo=X-Api-Key: abc123"] = some c' ∧
      goLookup c'.DataSources "foo" =
        some { url := none, header := some [("X-Api-Key", ["abc123"])] } ∧
      goLookup c'.ExtraHeaders "foo" = none :=
  parseDataSourceFlags_ds_header "/cwd" dsWithOldHeader ["foo=X-Api-Key: abc123"]
    [("foo", [("X-Api-Key", ["abc123"])])] "foo" [("X-Api-Key", ["abc123"])]
    { url := none, header := some [("Old-Header", ["v"])] }
    (by decide) (by decide) (by decide) (by decide) (by decide)

/-- C10: an alias matching both an existing Context descriptor and an
existing DataSources descriptor has the same parsed header set attached
to both, and appears in neither case in `ExtraHeaders`. -/
theorem parseDataSourceFlags_both_maps (wd : String) (c : Config) (hdrArgs : List String)
    (hdrs : Entries Header) (k : String) (v : Header) (d1 d2 : DSConfig)
    (hparse : parseHeaderArgs hdrArgs = some hdrs)
    (hv : entLookup hdrs k = some v)
    (hctx : goLookup c.Context k = some d1)
    (hd : goLookup c.DataSources k = some d2)
    (hx : goLookup c.ExtraHeaders k = (none : Option Header)) :
    ∃ c', c.ParseDataSourceFlags wd [] [] hdrArgs = some c' ∧
      goLookup c'.Context k = some { d1 with header := some v } ∧
      goLookup c'.DataSources k = some { d2 with header := some v } ∧
      goLookup c'.ExtraHeaders k = none := by
  obtain ⟨c', h1, h2, h3, h4⟩ := parseDataSourceFlags_core wd c hdrArgs hdrs k v hparse hv
    (Or.inl (by rw [hctx]; rfl)) hx
  exact ⟨c', h1, by rw [h2, hctx]; rfl, by rw [h3, hd]; rfl, h4⟩

/-- C10 witness: the theorem applied at a config where `"foo"` names
both a context and a datasource. -/
theorem parseDataSourceFlags_both_maps_witness :
    ∃ c', bothMapsFoo.ParseDataSourceFlags "/cwd" [] [] ["foo=X-Api-Key: abc123"] = some c' ∧
      goLookup c'.Context "foo" =
        some { url := none, header := some [("X-Api-Key", ["abc123"])] } ∧
      goLookup c'.DataSources "foo" =
        some { url := none, header := some [("X-Api-Key", ["abc123"])] } ∧
      goLookup c'.ExtraHeaders "foo" = none :=
  parseDataSourceFlags_both_maps "/cwd" bothMapsFoo ["foo=X-Api-Key: abc123"]
    [("foo", [("X-Api-Key", ["abc123"])])] "foo" [("X-Api-Key", ["abc123"])]
    { url := none, header := none } { url := none, header := none }
    (by decide) (by decide) (by decide) (by decide) (by decide)

/-- C2 counterexample: the descriptor's pre-existing `Old-Header` is
*not* retained - the parsed header set replaces the header map
wholesale. -/
theorem parseDataSourceFlags_replaces_headers :
    (goLookup dsWithOldHeader.DataSources "foo").map (fun d => goLookup d.header "Old-Header") =
      some (some ["v"]) ∧
    (dsWithOldHeader.ParseDataSourceFlags "/cwd" [] [] ["foo=X-Api-Key: abc123"]).map
        (fun c' => goLookup c'.DataSources "foo") =
      some (some { url := none, header := some [("X-Api-Key", ["abc123"])] }) := by
  decide

/-! ## C7: resolving relative paths -/

/-- C7 counterexample: `a/../b` is a valid relative path (no scheme,
no volume designator, not `-`), but resolution removes the dot
segment: the resulting path is `/cwd/b`, not `cwd + "/" + p`. -/
theorem parseSourceURL_dotdot_counterexample :
    parseSourceURL "/cwd" "a/../b" =
      some { scheme := "file", host := "", path := "/cwd/b", opq := "" } ∧
    ("/cwd/b" : String) ≠ "/cwd" ++ "/" ++ "a/../b" := by decide

theorem getSchemeGo_no_colon (raw : List Char) (l : List Char) (acc : List Char)
    (h : ∀ ch ∈ l, ch ≠ ':') : getSchemeGo raw acc l = some ([], raw) := by
  induction l generalizing acc with
  | nil => rfl
  | cons c rest ih =>
    have hc : c ≠ ':' := h c (by simp)
    have hrest : ∀ ch ∈ rest, ch ≠ ':' := fun ch hm => h ch (by simp [hm])
    rw [getSchemeGo]
    split_ifs <;> first
      | exact ih _ hrest
      | rfl

theorem joinSlash_cons_cons (s t : List Char) (rest : List (List Char)) :
    joinSlash (s :: t :: rest) = s ++ '/' :: joinSlash (t :: rest) := rfl

theorem mem_joinSlash (ps : List (List Char)) (ch : Char) (h : ch ∈ joinSlash ps) :
    ch = '/' ∨ ∃ s ∈ ps, ch ∈ s := by
  induction ps with
  | nil => simp [joinSlash] at h
  | cons s rest ih =>
    cases rest with
    | nil =>
      simp only [joinSlash] at h
      exact Or.inr ⟨s, by simp, h⟩
    | cons t rest2 =>
      rw [joinSlash_cons_cons, List.mem_append] at h
      rcases h with h | h
      · exact Or.inr ⟨s, by simp, h⟩
      · rw [List.mem_cons] at h
        rcases h with h | h
        · exact Or.inl h
        · rcases ih h with h | ⟨u, hu, hc⟩
          · exact Or.inl h
          · exact Or.inr ⟨u, by simp [hu], hc⟩

theorem goodPathChar_ne_slash (c : Char) (h : goodPathChar c = true) : c ≠ '/' := by
  intro he
  subst he
  simp [goodPathChar, Char.isAlphanum, Char.isAlpha, Char.isUpper, Char.isLower, Char.isDigit] at h

theorem goodPathChar_ne_colon (c : Char) (h : goodPathChar c = true) : c ≠ ':' := by
  intro he
  subst he
  simp [goodPathChar, Char.isAlphanum, Char.isAlpha, Char.isUpper, Char.isLower, Char.isDigit] at h

theorem joinSlash_ne_nil (ps : List (List Char)) (hps : ps ≠ [])
    (hg : ∀ s ∈ ps, goodSeg s) : joinSlash ps ≠ [] := by
  cases ps with
  | nil => exact absurd rfl hps
  | cons s rest =>
    have hs := (hg s (by simp)).1
    cases rest with
    | nil => simpa [joinSlash] using hs
    | cons t rest2 =>
      rw [joinSlash_cons_cons]
      simp [hs]

theorem joinSlash_head (ps : List (List Char)) (s : List Char) (rest : List (List Char))
    (hps : ps = s :: rest) (hs : s ≠ []) :
    (joinSlash ps).head? = s.head? := by
  subst hps
  cases rest with
  | nil => rfl
  | cons t rest2 =>
    rw [joinSlash_cons_cons]
    cases s with
    | nil => exact absurd rfl hs
    | cons a as => rfl

theorem urlParse_goodRel (ps : List (List Char)) (hps : ps ≠ [])
    (hg : ∀ s ∈ ps, goodSeg s) :
    urlParse (mkRel ps) = some { scheme := "", host := "", path := mkRel ps, opq := "" } := by
  have hnocolon : ∀ ch ∈ (mkRel ps).data, ch ≠ ':' := by
    intro ch hm
    rcases mem_joinSlash ps ch hm with h | ⟨s, hs, hc⟩
    · subst h; decide
    · have := (hg s hs).2.2.2
      rw [List.all_eq_true] at this
      exact goodPathChar_ne_colon ch (this ch hc)
  have hhead : (mkRel ps).data.head? ≠ some '/' := by
    obtain ⟨s, rest, rfl⟩ : ∃ s rest, ps = s :: rest := by
      cases ps with
      | nil => exact absurd rfl hps
      | cons s rest => exact ⟨s, rest, rfl⟩
    have hs := hg s (by simp)
    rw [show (mkRel (s :: rest)).data = joinSlash (s :: rest) from rfl,
      joinSlash_head (s :: rest) s rest rfl hs.1]
    cases s with
    | nil => exact absurd rfl hs.1
    | cons a as =>
      have ha : goodPathChar a = true := by
        have := hs.2.2.2
        rw [List.all_eq_true] at this
        exact this a (by simp)
      simp only [List.head?]
      intro he
      exact goodPathChar_ne_slash a ha (Option.some.inj he)
  rw [urlParse, getSchemeGo_no_colon _ _ _ hnocolon]
  simp only [List.map_nil]
  rw [if_pos hhead]
  have hscheme : (⟨([] : List Char)⟩ : String) = "" := rfl
  rw [if_neg (by simp [hscheme])]
  have hc : ¬((List.takeWhile (fun c => decide (c ≠ '/')) (mkRel ps).data).contains ':' = true) := by
    intro hcon
    have hmem : ':' ∈ List.takeWhile (fun c => decide (c ≠ '/')) (mkRel ps).data := by
      simpa using hcon
    exact hnocolon ':' (List.takeWhile_subset _ hmem) rfl
  rw [if_neg hc]

theorem slashFree_of_good (s : List Char) (hg : goodSeg s) : ∀ ch ∈ s, ch ≠ '/' := by
  intro ch hm
  have := hg.2.2.2
  rw [List.all_eq_true] at this
  exact goodPathChar_ne_slash ch (this ch hm)

theorem splitOnSlash_noslash (s : List Char) (h : ∀ ch ∈ s, ch ≠ '/') :
    splitOnSlash s = [s] := by
  induction s with
  | nil => rfl
  | cons c rest ih =>
    rw [splitOnSlash, if_neg (h c (by simp)), ih (fun ch hm => h ch (by simp [hm]))]

theorem splitOnSlash_append (s t : List Char) (h : ∀ ch ∈ s, ch ≠ '/') :
    splitOnSlash (s ++ '/' :: t) = s :: splitOnSlash t := by
  induction s with
  | nil => simp [splitOnSlash]
  | cons c rest ih =>
    rw [List.cons_append, splitOnSlash, if_neg (h c (by simp)),
      ih (fun ch hm => h ch (by simp [hm]))]

theorem splitOnSlash_joinSlash (ps : List (List Char)) (hps : ps ≠ [])
    (hg : ∀ s ∈ ps, goodSeg s) : splitOnSlash (joinSlash ps) = ps := by
  induction ps with
  | nil => exact absurd rfl hps
  | cons s rest ih =>
    cases rest with
    | nil =>
      show splitOnSlash s = [s]
      exact splitOnSlash_noslash s (slashFree_of_good s (hg s (by simp)))
    | cons t rest2 =>
      rw [joinSlash_cons_cons,
        splitOnSlash_append s _ (slashFree_of_good s (hg s (by simp))),
        ih (by simp) (fun u hu => hg u (by simp [hu]))]

theorem joinSlash_append (a b : List (List Char)) (ha : a ≠ []) (hb : b ≠ []) :
    joinSlash (a ++ b) = joinSlash a ++ '/' :: joinSlash b := by
  induction a with
  | nil => exact absurd rfl ha
  | cons s rest ih =>
    cases rest with
    | nil =>
      cases b with
      | nil => exact absurd rfl hb
      | cons u rest2 => rw [List.singleton_append, joinSlash_cons_cons]; rfl
    | cons t rest2 =>
      rw [List.cons_append, joinSlash_cons_cons]
      rw [show (t :: rest2) ++ b = (t :: rest2) ++ b from rfl] at ih
      rw [List.cons_append, joinSlash_cons_cons] at *
      rw [ih (by simp) , List.append_assoc]
      rfl

theorem rpLoop_good (elems : List (List Char)) (dst : List Char) (l0 : List Char)
    (hne : elems ≠ []) (hg : ∀ e ∈ elems, e ≠ ['.'] ∧ e ≠ ['.', '.']) :
    ∃ last ∈ elems, rpLoop elems dst false l0 =
      (dst ++ (elems.map (fun e => '/' :: e)).flatten, last) := by
  induction elems generalizing dst l0 with
  | nil => exact absurd rfl hne
  | cons e rest ih =>
    have he := hg e (by simp)
    rw [rpLoop, if_neg he.1, if_neg he.2]
    cases rest with
    | nil =>
      refine ⟨e, by simp, ?_⟩
      rw [rpLoop]
      simp
    | cons f rest2 =>
      obtain ⟨last, hlast, heq⟩ := ih (dst ++ '/' :: e) e (by simp)
        (fun u hu => hg u (by simp [hu]))
      refine ⟨last, by simp [hlast], ?_⟩
      rw [show dst ++ (if false = true then [] else ['/']) ++ e = dst ++ '/' :: e by simp]
      rw [heq]
      simp

theorem upToLastSlash_slash (l : List Char) : upToLastSlash (l ++ ['/']) = l ++ ['/'] := by
  rw [upToLastSlash, List.reverse_append]
  simp [List.dropWhile]

theorem flatten_slash (xs : List (List Char)) (hne : xs ≠ []) :
    (xs.map (fun e => '/' :: e)).flatten = '/' :: joinSlash xs := by
  induction xs with
  | nil => exact absurd rfl hne
  | cons s rest ih =>
    cases rest with
    | nil => simp [joinSlash]
    | cons t rest2 =>
      rw [List.map_cons, List.flatten_cons, ih (by simp), joinSlash_cons_cons]
      simp

theorem goodSeg_not_dot (s : List Char) (h : goodSeg s) : s ≠ ['.'] ∧ s ≠ ['.', '.'] :=
  ⟨h.2.1, h.2.2.1⟩

theorem resolvePath_good (ws ps : List (List Char)) (hws : ws ≠ []) (hps : ps ≠ [])
    (hgw : ∀ s ∈ ws, goodSeg s) (hgp : ∀ s ∈ ps, goodSeg s) :
    resolvePath (mkAbs ws ++ "/") (mkRel ps) = mkAbs ws ++ "/" ++ mkRel ps := by
  have hjne : joinSlash ps ≠ [] := joinSlash_ne_nil ps hps hgp
  have hrefne : mkRel ps ≠ "" := by
    intro h
    exact hjne (congrArg String.data h)
  have hdata : (mkAbs ws ++ "/").data = ('/' :: joinSlash ws) ++ ['/'] := by
    show (mkAbs ws).data ++ ("/" : String).data = _
    rfl
  have hhead : (mkRel ps).data.head? ≠ some '/' := by
    obtain ⟨s, rest, rfl⟩ : ∃ s rest, ps = s :: rest := by
      cases ps with
      | nil => exact absurd rfl hps
      | cons s rest => exact ⟨s, rest, rfl⟩
    have hs := hgp s (by simp)
    rw [show (mkRel (s :: rest)).data = joinSlash (s :: rest) from rfl,
      joinSlash_head (s :: rest) s rest rfl hs.1]
    cases s with
    | nil => exact absurd rfl hs.1
    | cons a as =>
      have ha : goodPathChar a = true := by
        have := hs.2.2.2
        rw [List.all_eq_true] at this
        exact this a (by simp)
      simp only [List.head?]
      intro he
      exact goodPathChar_ne_slash a ha (Option.some.inj he)
  have hfull : (if mkRel ps = "" then (mkAbs ws ++ "/").data
      else if (mkRel ps).data.head? ≠ some '/' then
        upToLastSlash (mkAbs ws ++ "/").data ++ (mkRel ps).data
      else (mkRel ps).data)
      = '/' :: joinSlash (ws ++ ps) := by
    rw [if_neg hrefne, if_pos hhead]
    rw [show (mkAbs ws ++ "/").data = ('/' :: joinSlash ws) ++ ['/'] from rfl]
    rw [upToLastSlash_slash]
    show ('/' :: joinSlash ws) ++ ['/'] ++ joinSlash ps = _
    rw [joinSlash_append ws ps hws hps]
    simp
  rw [resolvePath, hfull]
  rw [if_neg (by simp)]
  have hgood : ∀ u ∈ ws ++ ps, goodSeg u := by
    intro u hu
    rcases List.mem_append.mp hu with h | h
    · exact hgw u h
    · exact hgp u h
  have hsplit : splitOnSlash ('/' :: joinSlash (ws ++ ps)) = [] :: (ws ++ ps) := by
    rw [splitOnSlash, if_pos rfl,
      splitOnSlash_joinSlash (ws ++ ps) (by simp [hws]) hgood]
  rw [hsplit]
  have hstep : rpLoop ([] :: (ws ++ ps)) ['/'] true [] = rpLoop (ws ++ ps) ['/'] false [] := rfl
  rw [hstep]
  obtain ⟨last, hlast, heq⟩ := rpLoop_good (ws ++ ps) ['/'] [] (by simp [hws])
    (fun u hu => goodSeg_not_dot u (hgood u hu))
  rw [heq, flatten_slash _ (by simp [hws])]
  have hld := goodSeg_not_dot last (hgood last hlast)
  have hne2 : ¬(last = ['.'] ∨ last = ['.', '.']) := by
    rintro (h | h)
    · exact hld.1 h
    · exact hld.2 h
  show (let dst := if last = ['.'] ∨ last = ['.', '.'] then
        (['/'] ++ '/' :: joinSlash (ws ++ ps)) ++ ['/']
      else ['/'] ++ '/' :: joinSlash (ws ++ ps)
    match dst with
    | a :: b :: rest => if b = '/' then (⟨b :: rest⟩ : String) else ⟨a :: b :: rest⟩
    | _ => ⟨dst⟩) = mkAbs ws ++ "/" ++ mkRel ps
  rw [if_neg hne2]
  show (⟨'/' :: joinSlash (ws ++ ps)⟩ : String) = mkAbs ws ++ "/" ++ mkRel ps
  show (⟨'/' :: joinSlash (ws ++ ps)⟩ : String) =
    ⟨('/' :: joinSlash ws) ++ ['/'] ++ joinSlash ps⟩
  rw [joinSlash_append ws ps hws hps]
  simp

theorem absFileURL_good (ws ps : List (List Char)) (hws : ws ≠ []) (hps : ps ≠ [])
    (hgw : ∀ s ∈ ws, goodSeg s) (hgp : ∀ s ∈ ps, goodSeg s) :
    absFileURL (mkAbs ws) (mkRel ps) =
      some { scheme := "file", host := "", path := mkAbs ws ++ "/" ++ mkRel ps, opq := "" } := by
  have hrr : resolveReference
      { scheme := "file", host := "", path := mkAbs ws ++ "/", opq := "" }
      { scheme := "", host := "", path := mkRel ps, opq := "" } =
      { scheme := "file", host := "", path := mkAbs ws ++ "/" ++ mkRel ps, opq := "" } := by
    rw [resolveReference]
    rw [if_neg (by simp)]
    rw [if_neg (by simp)]
    rw [show resolvePath (mkAbs ws ++ "/") (mkRel ps) = mkAbs ws ++ "/" ++ mkRel ps from
      resolvePath_good ws ps hws hps hgw hgp]
    rfl
  rw [absFileURL, urlParse_goodRel ps hps hgp]
  show (if (mkAbs ws).data.head? = some '/' then
      some (resolveReference { scheme := "file", host := "", path := mkAbs ws ++ "/", opq := "" }
        { scheme := "", host := "", path := mkRel ps, opq := "" })
    else _) = _
  rw [if_pos (show (mkAbs ws).data.head? = some '/' from rfl), hrr]

/-- C7 amended: resolving a dot-segment-free slash-separated relative
path (segments of plain characters, not the stdin sentinel `-`) against
an absolute slash-normalized working directory yields the absolute
`file` URL whose path is `cwd ++ "/" ++ p`.  (Dot segments are removed
by reference resolution, so general relative paths need not satisfy
this.) -/
theorem parseSourceURL_relative (ws ps : List (List Char)) (hws : ws ≠ []) (hps : ps ≠ [])
    (hgw : ∀ s ∈ ws, goodSeg s) (hgp : ∀ s ∈ ps, goodSeg s)
    (hdash : mkRel ps ≠ "-") :
    parseSourceURL (mkAbs ws) (mkRel ps) =
      some { scheme := "file", host := "", path := mkAbs ws ++ "/" ++ mkRel ps, opq := "" } := by
  rw [parseSourceURL]
  simp only [if_neg hdash]
  rw [urlParse_goodRel ps hps hgp]
  show (if ("" : String) ≠ "" then _ else absFileURL (mkAbs ws) (mkRel ps)) = _
  rw [if_neg (by simp)]
  exact absFileURL_good ws ps hws hps hgw hgp

/-- C7 witness: the amended theorem applied at `cwd = "/cwd"` and
`p = "bar/data.json"`. -/
theorem parseSourceURL_relative_witness :
    parseSourceURL (mkAbs [['c', 'w', 'd']])
        (mkRel [['b', 'a', 'r'], ['d', 'a', 't', 'a', '.', 'j', 's', 'o', 'n']]) =
      some { scheme := "file"
             host := ""
             path := mkAbs [['c', 'w', 'd']] ++ "/" ++
               mkRel [['b', 'a', 'r'], ['d', 'a', 't', 'a', '.', 'j', 's', 'o', 'n']]
             opq := "" } :=
  parseSourceURL_relative [['c', 'w', 'd']]
    [['b', 'a', 'r'], ['d', 'a', 't', 'a', '.', 'j', 's', 'o', 'n']]
    (by decide) (by decide) (by decide) (by decide) (by decide)

end GomplateConfig
